import Mathlib

set_option maxHeartbeats 1000000

/-!
Shallow embedding of the `ccap` caption library (`src/lib.rs`).

Rust `&str` values are modelled as lists of characters (`Str`); the byte
indices used by the source coincide with character indices on the ASCII
inputs that the theorems below quantify over or evaluate at.

Control flow is modelled by `Outcome`: `ok`/`err` mirror `Result`, and
`panic` marks any `panic!`, `unwrap` or `expect` abort of the source.
Functions of the source that can only panic (never return `Err`) are
modelled with `Option`, `none` standing for the panic.
-/

abbrev Str := List Char

inductive Outcome (ε : Type) (α : Type) where
  | ok (a : α)
  | err (e : ε)
  | panic
deriving DecidableEq, Repr

/-- Rust `str::split` on a single character: every separator occurrence
splits, keeping empty segments (including leading and trailing ones). -/
def splitOnChar (sep : Char) : Str → List Str
  | [] => [[]]
  | c :: rest =>
    if c = sep then [] :: splitOnChar sep rest
    else
      match splitOnChar sep rest with
      | [] => [[c]]
      | h :: t => (c :: h) :: t

/-- Strip one trailing carriage return, as `str::lines` does per line. -/
def stripCr (l : Str) : Str :=
  if l.getLast? = some '\r' then l.dropLast else l

/-- Rust `str::lines`: split on `'\n'`, drop the final empty segment
produced by a trailing newline, and strip one trailing `'\r'` per line. -/
def rustLines (s : Str) : List Str :=
  let parts := splitOnChar '\n' s
  let parts := if parts.getLast? = some [] then parts.dropLast else parts
  parts.map stripCr

/-- Rust `Iterator::position` / `str::find`: index of the first element
satisfying the predicate. -/
def findIdxOpt {α : Type} (p : α → Bool) : List α → Option Nat
  | [] => none
  | x :: rest => if p x then some 0 else (findIdxOpt p rest).map (· + 1)

/-- Rust `[T]::join("\n")` / the implicit join of `format!` line pieces. -/
def joinNl : List Str → Str
  | [] => []
  | [l] => l
  | l :: ls => l ++ '\n' :: joinNl ls

/-- The slice `s[a..b]` of the source (indices on ASCII data). -/
def strSlice (s : Str) (a b : Nat) : Str := (s.drop a).take (b - a)

/-- Rust `str::get(a..b)`: `none` when the range is out of bounds. -/
def rustGetRange (s : Str) (a b : Nat) : Option Str :=
  if a ≤ b ∧ b ≤ s.length then some (strSlice s a b) else none

/-- Rust `str::get(a..)`: `none` when the start is out of bounds. -/
def rustGetFrom (s : Str) (a : Nat) : Option Str :=
  if a ≤ s.length then some (s.drop a) else none

def digitVal (c : Char) : Nat := c.toNat - '0'.toNat

def parseDigitsAux (acc : Nat) : Str → Option Nat
  | [] => some acc
  | c :: rest =>
    if c.isDigit then parseDigitsAux (acc * 10 + digitVal c) rest else none

/-- Rust `str::parse::<usize>()`: an optional leading `'+'` followed by a
non-empty run of ASCII digits (machine-width overflow is irrelevant for the
magnitudes reachable in this development). -/
def rustParseUsize (s : Str) : Option Nat :=
  match s with
  | [] => none
  | c :: rest =>
    if c = '+' then
      if rest = [] then none else parseDigitsAux 0 rest
    else parseDigitsAux 0 (c :: rest)

/-- `char::is_numeric` of the source, restricted to ASCII decimal digits;
the two coincide on the ASCII data all theorems below use. -/
def rustIsNumeric (c : Char) : Bool := c.isDigit

def natDigitsCore : Nat → Nat → Str → Str
  | 0, _, acc => acc
  | fuel + 1, n, acc =>
    if n < 10 then Nat.digitChar n :: acc
    else natDigitsCore fuel (n / 10) (Nat.digitChar (n % 10) :: acc)

/-- Decimal rendering of a `usize`, as `format!("{}", n)` produces. -/
def natDigits (n : Nat) : Str := natDigitsCore (n + 1) n []

/-- `format!("{:0w}", n)`: decimal digits left-padded with zeros to width `w`. -/
def padZero (w : Nat) (n : Nat) : Str :=
  List.replicate (w - (natDigits n).length) '0' ++ natDigits n

-- Useful constants (src/lib.rs lines 6-8)
def MILLIS_PER_SECOND : Nat := 1000
def MILLIS_PER_MINUTE : Nat := 60 * MILLIS_PER_SECOND
def MILLIS_PER_HOUR : Nat := 60 * MILLIS_PER_MINUTE

/-- `SimpleTime` (src/lib.rs lines 51-57). -/
structure SimpleTime where
  hours : Nat
  minutes : Nat
  seconds : Nat
  milliseconds : Nat
deriving DecidableEq, Repr

/-- Error type for trying to make a negative `SimpleTime`. -/
inductive NegativeSimpleTime where
  | mk
deriving DecidableEq, Repr

/-- `SimpleTime::from_parts` (lines 62-80); `none` models the `panic!` on an
out-of-range component. -/
def SimpleTime.from_parts (hours minutes seconds milliseconds : Nat) :
    Option SimpleTime :=
  if minutes ≥ 60 then none
  else if seconds ≥ 60 then none
  else if milliseconds ≥ 999 then none
  else some ⟨hours, minutes, seconds, milliseconds⟩

/-- `SimpleTime::from_milliseconds` (lines 83-100). -/
def SimpleTime.from_milliseconds (m : Nat) : SimpleTime :=
  let hours := m / MILLIS_PER_HOUR
  let t1 := m - hours * MILLIS_PER_HOUR
  let minutes := t1 / MILLIS_PER_MINUTE
  let t2 := t1 - minutes * MILLIS_PER_MINUTE
  let seconds := t2 / MILLIS_PER_SECOND
  let milliseconds := t2 - seconds * MILLIS_PER_SECOND
  ⟨hours, minutes, seconds, milliseconds⟩

/-- `SimpleTime::to_milliseconds` (lines 102-107). -/
def SimpleTime.to_milliseconds (t : SimpleTime) : Nat :=
  t.hours * MILLIS_PER_HOUR + t.minutes * MILLIS_PER_MINUTE
    + t.seconds * MILLIS_PER_SECOND + t.milliseconds

/-- `SimpleTime::offset` (lines 117-128): the sum is taken in a widened
signed domain (`i128` in the source, `Int` here); a negative result is the
error case, leaving the receiver unchanged; otherwise the value is replaced
by `from_milliseconds` of the result. -/
def SimpleTime.offset (t : SimpleTime) (offset : Int) :
    Outcome NegativeSimpleTime SimpleTime :=
  let new_millis : Int := (t.to_milliseconds : Int) + offset
  if new_millis < 0 then .err .mk
  else .ok (SimpleTime.from_milliseconds new_millis.toNat)

/-- Error type for `CaptionBlock` (lines 924-927). -/
inductive CaptionBlockError where
  | EndsBeforeStart (start stop : SimpleTime)
deriving DecidableEq, Repr

/-- `CaptionBlock` (lines 872-878); `stop` embeds the source field `end`,
which is a reserved word in Lean. -/
structure CaptionBlock where
  speaker : Option Str
  start : SimpleTime
  stop : SimpleTime
  text : Str
deriving DecidableEq, Repr

/-- `CaptionBlock::from` (lines 882-898). -/
def CaptionBlock.fromParts (speaker : Option Str) (start stop : SimpleTime)
    (text : Str) : Outcome CaptionBlockError CaptionBlock :=
  let diff : Int := (stop.to_milliseconds : Int) - (start.to_milliseconds : Int)
  if diff < 0 then .err (.EndsBeforeStart start stop)
  else .ok ⟨speaker, start, stop, text⟩

/-- `CaptionBlock::offset_milliseconds` (lines 916-920). -/
def CaptionBlock.offset_milliseconds (b : CaptionBlock) (n : Int) :
    Outcome NegativeSimpleTime CaptionBlock :=
  match b.start.offset n with
  | .ok s =>
    match b.stop.offset n with
    | .ok e => .ok { b with start := s, stop := e }
    | .err e => .err e
    | .panic => .panic
  | .err e => .err e
  | .panic => .panic

/-- `Caption` (lines 932-936). -/
structure Caption where
  header : Option Str
  blocks : List CaptionBlock
deriving DecidableEq, Repr

/-- `Caption::time_head` (lines 958-960): `self.blocks[0]` — `none` models
the out-of-bounds panic on an empty document. -/
def Caption.time_head (c : Caption) : Option Nat :=
  match c.blocks with
  | [] => none
  | b :: _ => some b.start.to_milliseconds

/-- `Caption::time_tail` (lines 962-964): `iter().last().unwrap()` — `none`
models the unwrap panic on an empty document. -/
def Caption.time_tail (c : Caption) : Option Nat :=
  match c.blocks.getLast? with
  | none => none
  | some b => some b.stop.to_milliseconds

/-- The inner loop of `Caption::concatenate`: offset every block of one
input by `last_ts`; the source unwraps each offset with `expect`, so an
offset error is a panic (`none`). -/
def concatOffsetBlocks : List CaptionBlock → Nat → Option (List CaptionBlock)
  | [], _ => some []
  | b :: bs, n =>
    match b.offset_milliseconds (n : Int) with
    | .ok b' => (concatOffsetBlocks bs n).map (b' :: ·)
    | .err _ => none
    | .panic => none

/-- The fold of `Caption::concatenate` over the input documents, carrying
the running `last_ts` and the accumulated blocks. -/
def concatGo : List Caption → Nat → List CaptionBlock →
    Option (List CaptionBlock)
  | [], _, acc => some acc
  | cap :: rest, last_ts, acc =>
    match concatOffsetBlocks cap.blocks last_ts with
    | none => none
    | some bs =>
      match cap.time_tail with
      | none => none
      | some tt => concatGo rest (last_ts + tt) (acc ++ bs)

/-- `Caption::concatenate` (lines 967-988); `none` models the panics of the
`expect` on each offset and of `time_tail`'s unwrap on an empty input. -/
def Caption.concatenate (captions : List Caption) : Option Caption :=
  (concatGo captions 0 []).map (fun bs => ⟨none, bs⟩)

/-- Error type for `VttParser` (lines 461-469). -/
inductive VttParserError where
  | UnexpectedEndOfFile
  | FileNotReadable (s : Str)
  | ExpectedBlankLine (s : Str)
  | ExpectedBlockNumber (s : Str)
  | BlockHeaderInvalid (s : Str)
  | InvalidTimestamp (s : Str)
deriving DecidableEq, Repr

/-- Error type for `SrtParser` (lines 763-772). -/
inductive SrtParserError where
  | UnexpectedEndOfFile
  | FileNotReadable (s : Str)
  | ExpectedBlankLine (s : Str)
  | ExpectedBlockNumber (s : Str)
  | BlockHeaderInvalid (s : Str)
  | InvalidTimestamp (s : Str)
  | InvalidSpeakerPlacement (s : Str)
deriving DecidableEq, Repr

/-- `VttParser::block_timestamp` (lines 313-373). Note the source checks
`s.chars().nth(2)` a second time where its comment says "Check second
colon" (line 339): position 5 is never inspected; the embedding reproduces
that. `from_parts` can panic. -/
def VttParser.block_timestamp (s : Str) : Outcome VttParserError SimpleTime :=
  if s.length ≠ 12 then .err (.InvalidTimestamp s)
  else
    match rustParseUsize (strSlice s 0 2) with
    | none => .err (.InvalidTimestamp s)
    | some hours =>
      if s.getD 2 ' ' ≠ ':' then .err (.InvalidTimestamp s)
      else
        match rustParseUsize (strSlice s 3 5) with
        | none => .err (.InvalidTimestamp s)
        | some minutes =>
          -- source line 339: re-checks index 2, not index 5
          if s.getD 2 ' ' ≠ ':' then .err (.InvalidTimestamp s)
          else
            match rustParseUsize (strSlice s 6 8) with
            | none => .err (.InvalidTimestamp s)
            | some seconds =>
              if s.getD 8 ' ' ≠ '.' then .err (.InvalidTimestamp s)
              else
                match rustParseUsize (strSlice s 9 12) with
                | none => .err (.InvalidTimestamp s)
                | some milliseconds =>
                  match SimpleTime.from_parts hours minutes seconds
                      milliseconds with
                  | some t => .ok t
                  | none => .panic

/-- `VttParser::block_header_timestamps` (lines 419-453). -/
def VttParser.block_header_timestamps (s : Str) :
    Outcome VttParserError (SimpleTime × SimpleTime) :=
  let words := splitOnChar ' ' s
  if words.length = 3 then
    match words.getD 0 [], words.getD 1 [], words.getD 2 [] with
    | ts1, arrow, ts2 =>
      if arrow = "-->".data then
        match VttParser.block_timestamp ts1 with
        | .ok start =>
          match VttParser.block_timestamp ts2 with
          | .ok stop => .ok (start, stop)
          | .err e => .err e
          | .panic => .panic
        | .err e => .err e
        | .panic => .panic
      else .err (.InvalidTimestamp s)
  else .err (.InvalidTimestamp s)

/-- `VttParser::block_header` (lines 375-417). -/
def VttParser.block_header (s : Str) :
    Outcome VttParserError (Option Str × SimpleTime × SimpleTime) :=
  if s.length = 0 then .err .UnexpectedEndOfFile
  else if rustIsNumeric (s.headD ' ') then
    match VttParser.block_header_timestamps s with
    | .ok (start, stop) => .ok (none, start, stop)
    | .err e => .err e
    | .panic => .panic
  else
    match findIdxOpt rustIsNumeric s with
    | none => .err (.BlockHeaderInvalid s)
    | some first_loc =>
      if strSlice s (first_loc - 1) first_loc ≠ [' '] then
        .err (.BlockHeaderInvalid s)
      else
        let name := s.take (first_loc - 1)
        match VttParser.block_header_timestamps (s.drop first_loc) with
        | .ok (start, stop) => .ok (some name, start, stop)
        | .err e => .err e
        | .panic => .panic

/-- `VttParser::block_number` (lines 305-311). -/
def VttParser.block_number (s : Str) : Outcome VttParserError Nat :=
  match rustParseUsize s with
  | some n => .ok n
  | none => .err (.ExpectedBlockNumber s)

/-- `VttParser::block_text` (lines 455-457). -/
def VttParser.block_text (s : Str) : Str := s

/-- `VttParser::block` (lines 276-303). -/
def VttParser.block (s : Str) : Outcome VttParserError CaptionBlock :=
  let ls := rustLines s
  if ls.length ≠ 4 then .err .UnexpectedEndOfFile
  else
    match ls with
    | l0 :: l1 :: l2 :: l3 :: _ =>
      if l0 ≠ [] then .err (.ExpectedBlankLine l0)
      else
        match VttParser.block_number l1 with
        | .err e => .err e
        | .panic => .panic
        | .ok _ =>
          match VttParser.block_header l2 with
          | .err e => .err e
          | .panic => .panic
          | .ok (speaker, start, stop) =>
            .ok ⟨speaker, start, stop, VttParser.block_text l3⟩
    | _ => .err .UnexpectedEndOfFile

/-- `VttParser::header` (lines 253-274). -/
def VttParser.header (s : Str) :
    Outcome VttParserError (Option Str × Nat) :=
  match findIdxOpt (fun l => l = "WEBVTT".data) (rustLines s) with
  | some n =>
    if n = 0 ∨ n = 1 ∨ n = 2 then .ok (none, n)
    else .ok (some (joinNl ((rustLines s).take (n - 2))), n)
  | none => .err .UnexpectedEndOfFile

/-- The per-block loop of `VttParser::parse` (lines 234-243): the lines
after the marker are consumed four at a time, each group re-joined with
`'\n'` and handed to `VttParser::block`; the divisibility check of the
caller guarantees the group count. -/
def VttParser.parseBlocks : List Str → Outcome VttParserError (List CaptionBlock)
  | [] => .ok []
  | l0 :: l1 :: l2 :: l3 :: rest =>
    match VttParser.block (joinNl [l0, l1, l2, l3]) with
    | .ok b =>
      match VttParser.parseBlocks rest with
      | .ok bs => .ok (b :: bs)
      | .err e => .err e
      | .panic => .panic
    | .err e => .err e
    | .panic => .panic
  | _ => .err .UnexpectedEndOfFile

/-- `VttParser::parse` (lines 212-251). The source compares
`blocks_remaining as f32` with `(total - start) as f32 / 4.0`, which for
the line counts of any document below `2^24` lines is exactly the
divisibility-by-4 test modelled here. -/
def VttParser.parse (contents : Str) : Outcome VttParserError Caption :=
  match VttParser.header contents with
  | .err e => .err e
  | .panic => .panic
  | .ok (header, vtt_line) =>
    let start_line := vtt_line + 1
    let total_lines := (rustLines contents).length
    if (total_lines - start_line) % 4 ≠ 0 then .err .UnexpectedEndOfFile
    else
      match VttParser.parseBlocks ((rustLines contents).drop start_line) with
      | .ok blocks => .ok ⟨header, blocks⟩
      | .err e => .err e
      | .panic => .panic

/-- `SrtParser::block_timestamp` (lines 643-703): identical to the VTT
version except for the `','` separator, including the re-check of index 2
at line 669 where the comment says "Check second colon". -/
def SrtParser.block_timestamp (s : Str) : Outcome SrtParserError SimpleTime :=
  if s.length ≠ 12 then .err (.InvalidTimestamp s)
  else
    match rustParseUsize (strSlice s 0 2) with
    | none => .err (.InvalidTimestamp s)
    | some hours =>
      if s.getD 2 ' ' ≠ ':' then .err (.InvalidTimestamp s)
      else
        match rustParseUsize (strSlice s 3 5) with
        | none => .err (.InvalidTimestamp s)
        | some minutes =>
          -- source line 669: re-checks index 2, not index 5
          if s.getD 2 ' ' ≠ ':' then .err (.InvalidTimestamp s)
          else
            match rustParseUsize (strSlice s 6 8) with
            | none => .err (.InvalidTimestamp s)
            | some seconds =>
              if s.getD 8 ' ' ≠ ',' then .err (.InvalidTimestamp s)
              else
                match rustParseUsize (strSlice s 9 12) with
                | none => .err (.InvalidTimestamp s)
                | some milliseconds =>
                  match SimpleTime.from_parts hours minutes seconds
                      milliseconds with
                  | some t => .ok t
                  | none => .panic

/-- `SrtParser::block_timestamps` (lines 705-739). -/
def SrtParser.block_timestamps (s : Str) :
    Outcome SrtParserError (SimpleTime × SimpleTime) :=
  let words := splitOnChar ' ' s
  if words.length = 3 then
    match words.getD 0 [], words.getD 1 [], words.getD 2 [] with
    | ts1, arrow, ts2 =>
      if arrow = "-->".data then
        match SrtParser.block_timestamp ts1 with
        | .ok start =>
          match SrtParser.block_timestamp ts2 with
          | .ok stop => .ok (start, stop)
          | .err e => .err e
          | .panic => .panic
        | .err e => .err e
        | .panic => .panic
      else .err (.InvalidTimestamp s)
  else .err (.InvalidTimestamp s)

/-- `SrtParser::block_number` (lines 635-641). -/
def SrtParser.block_number (s : Str) : Outcome SrtParserError Nat :=
  match rustParseUsize s with
  | some n => .ok n
  | none => .err (.ExpectedBlockNumber s)

/-- `SrtParser::block_text` (lines 741-759): the two `unwrap`s on the
slices are panics when the ranges fall outside the line. -/
def SrtParser.block_text (s : Str) :
    Outcome SrtParserError (Option Str × Str) :=
  match findIdxOpt (fun c => c = '[') s with
  | some n0 =>
    if n0 ≠ 0 then .err (.InvalidSpeakerPlacement s)
    else
      match findIdxOpt (fun c => c = ']') s with
      | some n1 =>
        match rustGetRange s (n0 + 1) n1, rustGetFrom s (n1 + 2) with
        | some speaker, some text => .ok (some speaker, text)
        | _, _ => .panic
      | none => .err (.InvalidSpeakerPlacement s)
  | none => .ok (none, s)

/-- `SrtParser::block` (lines 606-633). -/
def SrtParser.block (s : Str) : Outcome SrtParserError CaptionBlock :=
  let ls := rustLines s
  if ls.length ≠ 4 then .err .UnexpectedEndOfFile
  else
    match ls with
    | l0 :: l1 :: l2 :: l3 :: _ =>
      if l0 ≠ [] then .err (.ExpectedBlankLine l0)
      else
        match SrtParser.block_number l1 with
        | .err e => .err e
        | .panic => .panic
        | .ok _ =>
          match SrtParser.block_timestamps l2 with
          | .err e => .err e
          | .panic => .panic
          | .ok (start, stop) =>
            match SrtParser.block_text l3 with
            | .err e => .err e
            | .panic => .panic
            | .ok (speaker, text) => .ok ⟨speaker, start, stop, text⟩
    | _ => .err .UnexpectedEndOfFile

/-- The per-block loop of `SrtParser::parse` (lines 587-596), analogous to
the VTT one. -/
def SrtParser.parseBlocks : List Str → Outcome SrtParserError (List CaptionBlock)
  | [] => .ok []
  | l0 :: l1 :: l2 :: l3 :: rest =>
    match SrtParser.block (joinNl [l0, l1, l2, l3]) with
    | .ok b =>
      match SrtParser.parseBlocks rest with
      | .ok bs => .ok (b :: bs)
      | .err e => .err e
      | .panic => .panic
    | .err e => .err e
    | .panic => .panic
  | _ => .err .UnexpectedEndOfFile

/-- `SrtParser::parse` (lines 572-604): a newline is prepended, then the
same grouped-line processing as for VTT (the `f32` divisibility comparison
is modelled exactly as for `VttParser.parse`). -/
def SrtParser.parse (contents : Str) : Outcome SrtParserError Caption :=
  let contents := '\n' :: contents
  let total_lines := (rustLines contents).length
  if total_lines % 4 ≠ 0 then .err .UnexpectedEndOfFile
  else
    match SrtParser.parseBlocks (rustLines contents) with
    | .ok blocks => .ok ⟨none, blocks⟩
    | .err e => .err e
    | .panic => .panic

/-- `VttWriter::timestamp` (lines 533-541): `"{:02}:{:02}:{:02}.{:03}"`. -/
def VttWriter.timestamp (t : SimpleTime) : Str :=
  padZero 2 t.hours ++ ':' :: padZero 2 t.minutes ++ ':' :: padZero 2 t.seconds
    ++ '.' :: padZero 3 t.milliseconds

/-- The header line of a written VTT block (line 525-528). -/
def VttWriter.headerLine (cb : CaptionBlock) : Str :=
  match cb.speaker with
  | some person =>
    person ++ ' ' :: VttWriter.timestamp cb.start ++ " --> ".data
      ++ VttWriter.timestamp cb.stop
  | none =>
    VttWriter.timestamp cb.start ++ " --> ".data ++ VttWriter.timestamp cb.stop

/-- `VttWriter::block` (lines 518-531): `"{}\n{}\n{}\n"` of number, header
line and text. -/
def VttWriter.block (cb : CaptionBlock) (n : Nat) : Str :=
  natDigits n ++ '\n' :: VttWriter.headerLine cb ++ '\n' :: cb.text ++ ['\n']

/-- `VttWriter::header` (lines 543-549). -/
def VttWriter.header (cap : Caption) : Str :=
  match cap.header with
  | some s => s ++ '\n' :: '\n' :: "WEBVTT\n".data
  | none => "WEBVTT\n".data

/-- The loop of `VttWriter::write` numbering blocks from 1. -/
def VttWriter.writeBlocks : List CaptionBlock → Nat → List Str
  | [], _ => []
  | b :: bs, n => VttWriter.block b n :: VttWriter.writeBlocks bs (n + 1)

/-- `VttWriter::write` (lines 506-516): header component then one component
per block, joined with `'\n'`. -/
def VttWriter.write (cap : Caption) : Str :=
  joinNl (VttWriter.header cap :: VttWriter.writeBlocks cap.blocks 1)

/-- `SrtWriter::timestamp` (lines 840-848): `"{:02}:{:02}:{:02},{:03}"`. -/
def SrtWriter.timestamp (t : SimpleTime) : Str :=
  padZero 2 t.hours ++ ':' :: padZero 2 t.minutes ++ ':' :: padZero 2 t.seconds
    ++ ',' :: padZero 3 t.milliseconds

/-- The text line of a written SRT block (lines 833-836). -/
def SrtWriter.textLine (cb : CaptionBlock) : Str :=
  match cb.speaker with
  | some person => '[' :: person ++ ']' :: ' ' :: cb.text
  | none => cb.text

/-- `SrtWriter::block` (lines 825-838). -/
def SrtWriter.block (cb : CaptionBlock) (n : Nat) : Str :=
  natDigits n ++ '\n'
    :: (SrtWriter.timestamp cb.start ++ " --> ".data
        ++ SrtWriter.timestamp cb.stop)
    ++ '\n' :: SrtWriter.textLine cb ++ ['\n']

/-- The loop of `SrtWriter::write` numbering blocks from 1. -/
def SrtWriter.writeBlocks : List CaptionBlock → Nat → List Str
  | [], _ => []
  | b :: bs, n => SrtWriter.block b n :: SrtWriter.writeBlocks bs (n + 1)

/-- `SrtWriter::write` (lines 814-823): one component per block, no header,
joined with `'\n'`. -/
def SrtWriter.write (cap : Caption) : Str :=
  joinNl (SrtWriter.writeBlocks cap.blocks 1)

/-- Specification-side shift of one block by `delta` milliseconds: both
times move by exactly `delta` (used to state the refinement claims about
`Caption.concatenate`). -/
def specShiftBlock (delta : Nat) (b : CaptionBlock) : CaptionBlock :=
  ⟨b.speaker, SimpleTime.from_milliseconds (b.start.to_milliseconds + delta),
   SimpleTime.from_milliseconds (b.stop.to_milliseconds + delta), b.text⟩

/-- Specification-side `lastTime()`: total milliseconds of the last block's
end (0 for an empty document, where the source would panic). -/
def specLastTime (c : Caption) : Nat :=
  match c.blocks.getLast? with
  | some b => b.stop.to_milliseconds
  | none => 0

/-- Specification-side description of the concatenated block sequence: the
blocks of each document in input order, each shifted by the running sum of
`lastTime()` over the preceding documents. -/
def concatSpecBlocks : List Caption → Nat → List CaptionBlock
  | [], _ => []
  | c :: cs, acc =>
    c.blocks.map (specShiftBlock acc) ++ concatSpecBlocks cs (acc + specLastTime c)

/-- A display-text line that survives `lines()`-based re-splitting: it is
non-empty (the source's re-join of a four-line group loses a trailing empty
line), contains no newline, and does not end in a carriage return. -/
def GoodText (t : Str) : Prop :=
  t ≠ [] ∧ '\n' ∉ t ∧ t.getLast? ≠ some '\r'

/-- A speaker name the VTT block-header grammar can reproduce: ASCII with
no decimal digit (the parser splits the header line at the first numeric
character) and no line-break characters. -/
def GoodVttSpeaker (sp : Str) : Prop :=
  ∀ c ∈ sp, c.toNat < 128 ∧ c.isDigit = false ∧ c ≠ '\n' ∧ c ≠ '\r'

/-- A speaker name the SRT bracket convention can reproduce: ASCII with no
closing bracket and no line-break characters. -/
def GoodSrtSpeaker (sp : Str) : Prop :=
  ∀ c ∈ sp, c.toNat < 128 ∧ c ≠ ']' ∧ c ≠ '\n' ∧ c ≠ '\r'

/-- A time the writers render as a 12-character token that re-parses to the
same value: hours fit in two digits and the components satisfy the
`from_parts` ranges. -/
def GoodTime (t : SimpleTime) : Prop :=
  t.hours ≤ 99 ∧ t.minutes ≤ 59 ∧ t.seconds ≤ 59 ∧ t.milliseconds ≤ 998

def WellFormedVttBlock (b : CaptionBlock) : Prop :=
  GoodText b.text ∧ GoodTime b.start ∧ GoodTime b.stop ∧
    ∀ sp ∈ b.speaker, GoodVttSpeaker sp

/-- Well-formedness for the VTT round trip: no header (the writer and
parser disagree on the blank lines around the marker, see `C8`), and every
block is reproducible. -/
def WellFormedVtt (c : Caption) : Prop :=
  c.header = none ∧ ∀ b ∈ c.blocks, WellFormedVttBlock b

def WellFormedSrtBlock (b : CaptionBlock) : Prop :=
  GoodText b.text ∧ GoodTime b.start ∧ GoodTime b.stop ∧
    (∀ sp ∈ b.speaker, GoodSrtSpeaker sp) ∧
    (b.speaker = none → '[' ∉ b.text)

/-- Well-formedness for the SRT round trip: no header (the SRT writer drops
it), at least one block (the parser rejects the empty text the writer
produces for a blockless document), and every block reproducible. -/
def WellFormedSrt (c : Caption) : Prop :=
  c.header = none ∧ c.blocks ≠ [] ∧ ∀ b ∈ c.blocks, WellFormedSrtBlock b

/-- The four source lines a written VTT block contributes to the document
(the leading blank comes from the join between components). -/
def vttBlockLines (b : CaptionBlock) (n : Nat) : List Str :=
  [[], natDigits n, VttWriter.headerLine b, b.text]

/-- The line image of `VttWriter.writeBlocks`. -/
def vttLinesAll : List CaptionBlock → Nat → List Str
  | [], _ => []
  | b :: bs, n => vttBlockLines b n ++ vttLinesAll bs (n + 1)

/-- The four source lines a written SRT block contributes to the document
(the leading blank comes from the prepended newline or the join). -/
def srtBlockLines (b : CaptionBlock) (n : Nat) : List Str :=
  [[], natDigits n,
   SrtWriter.timestamp b.start ++ " --> ".data ++ SrtWriter.timestamp b.stop,
   SrtWriter.textLine b]

/-- The line image of `SrtWriter.writeBlocks`. -/
def srtLinesAll : List CaptionBlock → Nat → List Str
  | [], _ => []
  | b :: bs, n => srtBlockLines b n ++ srtLinesAll bs (n + 1)

-- ===== Helper lemmas =====

theorem to_milliseconds_from_milliseconds (m : Nat) :
    (SimpleTime.from_milliseconds m).to_milliseconds = m := by
  simp [SimpleTime.from_milliseconds, SimpleTime.to_milliseconds,
    MILLIS_PER_HOUR, MILLIS_PER_MINUTE, MILLIS_PER_SECOND]
  omega

theorem offset_nonneg (t : SimpleTime) (d : Nat) :
    t.offset (d : Int) =
      .ok (SimpleTime.from_milliseconds (t.to_milliseconds + d)) := by
  have h1 : ¬ ((t.to_milliseconds : Int) + (d : Int) < 0) := by omega
  have h2 : ((t.to_milliseconds : Int) + (d : Int)).toNat =
      t.to_milliseconds + d := by omega
  simp [SimpleTime.offset, h1, h2]

-- ===== Claim theorems =====

/-- C1: `offset` computes `toMilliseconds() + delta` in the widened signed
domain; a negative result fails with `NegativeTime` (the value unchanged, a
failure in this pure embedding), otherwise the value is replaced by
`fromMilliseconds` of the sum; in particular every non-negative delta
succeeds and the new total equals the old total plus the delta. -/
theorem C1_offset_signed_widened (t : SimpleTime) (delta : Int) :
    ((t.to_milliseconds : Int) + delta < 0 → t.offset delta = .err .mk) ∧
    (0 ≤ (t.to_milliseconds : Int) + delta →
      t.offset delta =
        .ok (SimpleTime.from_milliseconds
              ((t.to_milliseconds : Int) + delta).toNat)) ∧
    (0 ≤ delta → ∃ t', t.offset delta = .ok t' ∧
      (t'.to_milliseconds : Int) = (t.to_milliseconds : Int) + delta) := by
  refine ⟨fun h => ?_, fun h => ?_, fun h => ?_⟩
  · simp [SimpleTime.offset, h]
  · simp [SimpleTime.offset, not_lt.mpr h]
  · have h0 : (0 : Int) ≤ (t.to_milliseconds : Int) + delta := by omega
    refine ⟨SimpleTime.from_milliseconds ((t.to_milliseconds : Int) + delta).toNat,
      by simp [SimpleTime.offset, not_lt.mpr h0], ?_⟩
    rw [to_milliseconds_from_milliseconds]
    omega

theorem C1_offset_signed_widened_witness :
    (SimpleTime.from_milliseconds 0).offset (-1) = .err .mk ∧
    ∃ t', (SimpleTime.from_milliseconds 0).offset 1000 = .ok t' ∧
      (t'.to_milliseconds : Int) =
        ((SimpleTime.from_milliseconds 0).to_milliseconds : Int) + 1000 :=
  ⟨(C1_offset_signed_widened _ _).1 (by decide),
   (C1_offset_signed_widened _ _).2.2 (by decide)⟩

/-- C2: the claim says the timestamp parse rejects any token whose
fixed-position separators do not match, including the colon after the
minutes; the source (lines 339 and 669) re-checks index 2 instead of
index 5, so a non-separator at position 5 is accepted by both variants:
the code contradicts its own "Check second colon" comment. -/
theorem C2_minute_separator_never_checked :
    VttParser.block_timestamp "00:00x00.000".data = .ok ⟨0, 0, 0, 0⟩ ∧
    SrtParser.block_timestamp "00:00x00,000".data = .ok ⟨0, 0, 0, 0⟩ := by
  decide

/-- C3 counterexample: `from_milliseconds 999` is a reachable construction
whose milliseconds component is 999, outside the claimed range [0, 998]. -/
theorem C3_counterexample :
    ¬ ((SimpleTime.from_milliseconds 999).milliseconds ≤ 998) := by decide

/-- C3 (amended): every reachable `SimpleTime` has minutes and seconds in
[0, 59]; the from-components path enforces milliseconds ≤ 998, but the
from-total-milliseconds and offset paths only guarantee
milliseconds ≤ 999. -/
theorem C3_component_invariants :
    (∀ h m s ms t, SimpleTime.from_parts h m s ms = some t →
      t.minutes ≤ 59 ∧ t.seconds ≤ 59 ∧ t.milliseconds ≤ 998) ∧
    (∀ n, (SimpleTime.from_milliseconds n).minutes ≤ 59 ∧
      (SimpleTime.from_milliseconds n).seconds ≤ 59 ∧
      (SimpleTime.from_milliseconds n).milliseconds ≤ 999) ∧
    (∀ t d t', SimpleTime.offset t d = .ok t' →
      t'.minutes ≤ 59 ∧ t'.seconds ≤ 59 ∧ t'.milliseconds ≤ 999) := by
  refine ⟨fun h m s ms t ht => ?_, fun n => ?_, fun t d t' ht => ?_⟩
  · simp only [SimpleTime.from_parts] at ht
    split_ifs at ht with h1 h2 h3
    obtain rfl := (Option.some.inj ht).symm
    simp only
    omega
  · simp [SimpleTime.from_milliseconds, MILLIS_PER_HOUR, MILLIS_PER_MINUTE,
      MILLIS_PER_SECOND]
    omega
  · simp only [SimpleTime.offset] at ht
    split_ifs at ht
    simp only [Outcome.ok.injEq] at ht
    subst ht
    simp [SimpleTime.from_milliseconds, MILLIS_PER_HOUR, MILLIS_PER_MINUTE,
      MILLIS_PER_SECOND]
    omega

theorem C3_component_invariants_witness :
    ((⟨7, 2, 3, 4⟩ : SimpleTime).minutes ≤ 59 ∧
      (⟨7, 2, 3, 4⟩ : SimpleTime).seconds ≤ 59 ∧
      (⟨7, 2, 3, 4⟩ : SimpleTime).milliseconds ≤ 998) ∧
    ((SimpleTime.from_milliseconds 999).minutes ≤ 59 ∧
      (SimpleTime.from_milliseconds 999).seconds ≤ 59 ∧
      (SimpleTime.from_milliseconds 999).milliseconds ≤ 999) ∧
    ((SimpleTime.from_milliseconds 999).minutes ≤ 59 ∧
      (SimpleTime.from_milliseconds 999).seconds ≤ 59 ∧
      (SimpleTime.from_milliseconds 999).milliseconds ≤ 999) :=
  ⟨C3_component_invariants.1 7 2 3 4 _ (by decide),
   C3_component_invariants.2.1 999,
   C3_component_invariants.2.2 (SimpleTime.from_milliseconds 998) 1 _
     (by decide)⟩

/-- C4: the claim (and the spec's propagation policy) says no input can
make the core panic; both parsers reach panics: the SRT text line `[]`
panics in `block_text`'s slice unwrap, and an out-of-range timestamp
component panics in `SimpleTime::from_parts`. -/
theorem C4_reachable_panics :
    SrtParser.parse "1\n00:00:00,000 --> 00:00:01,000\n[]\n".data = .panic ∧
    VttParser.parse "WEBVTT\n\n1\n00:00:60.000 --> 00:01:01.000\nhi\n".data =
      .panic := by
  decide

/-- C5 counterexample: a successful VTT parse yields a block whose start
(2000 ms) is after its end (1000 ms): the parsers build blocks directly and
never run the `CaptionBlock::from` ordering check. -/
theorem C5_counterexample :
    VttParser.parse "WEBVTT\n\n1\n00:00:02.000 --> 00:00:01.000\nx\n".data =
      .ok ⟨none, [⟨none, ⟨0, 0, 2, 0⟩, ⟨0, 0, 1, 0⟩, "x".data⟩]⟩ ∧
    ¬ ((⟨0, 0, 2, 0⟩ : SimpleTime).to_milliseconds ≤
        (⟨0, 0, 1, 0⟩ : SimpleTime).to_milliseconds) := by
  decide

/-- C5 (amended): `CaptionBlock::from` checks the ordering — it fails with
`EndsBeforeStart` exactly when the end is before the start and otherwise
returns the block unchanged — but blocks inside parsed documents are
constructed without this check and need not satisfy start ≤ end. -/
theorem C5_fromParts_order_check (sp : Option Str) (st en : SimpleTime)
    (tx : Str) :
    (en.to_milliseconds < st.to_milliseconds →
      CaptionBlock.fromParts sp st en tx = .err (.EndsBeforeStart st en)) ∧
    (st.to_milliseconds ≤ en.to_milliseconds →
      CaptionBlock.fromParts sp st en tx = .ok ⟨sp, st, en, tx⟩) := by
  refine ⟨fun h => ?_, fun h => ?_⟩
  · have : (en.to_milliseconds : Int) - (st.to_milliseconds : Int) < 0 := by
      omega
    simp [CaptionBlock.fromParts, this]
  · have : ¬ ((en.to_milliseconds : Int) - (st.to_milliseconds : Int) < 0) := by
      omega
    simp [CaptionBlock.fromParts, this]

theorem C5_fromParts_order_check_witness :
    CaptionBlock.fromParts none ⟨0, 0, 2, 0⟩ ⟨0, 0, 1, 0⟩ "x".data =
      .err (.EndsBeforeStart ⟨0, 0, 2, 0⟩ ⟨0, 0, 1, 0⟩) ∧
    CaptionBlock.fromParts none ⟨0, 0, 1, 0⟩ ⟨0, 0, 2, 0⟩ "x".data =
      .ok ⟨none, ⟨0, 0, 1, 0⟩, ⟨0, 0, 2, 0⟩, "x".data⟩ :=
  ⟨(C5_fromParts_order_check none ⟨0, 0, 2, 0⟩ ⟨0, 0, 1, 0⟩ "x".data).1
      (by decide),
   (C5_fromParts_order_check none ⟨0, 0, 1, 0⟩ ⟨0, 0, 2, 0⟩ "x".data).2
      (by decide)⟩

/-- C6: on a document with no blocks, `time_head` indexes `blocks[0]` and
`time_tail` unwraps `iter().last()` — both panic (no `EmptyDocument` error
exists in the code); on non-empty documents they return the first block's
start and the last block's end in milliseconds. -/
theorem C6_empty_document_queries_panic :
    Caption.time_head ⟨none, []⟩ = none ∧
    Caption.time_tail ⟨none, []⟩ = none ∧
    Caption.time_head
        ⟨none, [⟨none, ⟨0, 0, 1, 0⟩, ⟨0, 0, 2, 0⟩, "a".data⟩,
                ⟨none, ⟨0, 0, 3, 0⟩, ⟨0, 0, 4, 0⟩, "b".data⟩]⟩ = some 1000 ∧
    Caption.time_tail
        ⟨none, [⟨none, ⟨0, 0, 1, 0⟩, ⟨0, 0, 2, 0⟩, "a".data⟩,
                ⟨none, ⟨0, 0, 3, 0⟩, ⟨0, 0, 4, 0⟩, "b".data⟩]⟩ = some 4000 := by
  decide

theorem offset_milliseconds_nonneg (b : CaptionBlock) (d : Nat) :
    b.offset_milliseconds (d : Int) = .ok (specShiftBlock d b) := by
  simp [CaptionBlock.offset_milliseconds, offset_nonneg, specShiftBlock]

theorem concatOffsetBlocks_eq (bs : List CaptionBlock) (d : Nat) :
    concatOffsetBlocks bs d = some (bs.map (specShiftBlock d)) := by
  induction bs with
  | nil => rfl
  | cons b bs ih => simp [concatOffsetBlocks, offset_milliseconds_nonneg, ih]

theorem time_tail_of_ne_nil (c : Caption) (h : c.blocks ≠ []) :
    c.time_tail = some (specLastTime c) := by
  unfold Caption.time_tail specLastTime
  cases hg : c.blocks.getLast? with
  | none => exact absurd (List.getLast?_eq_none_iff.mp hg) h
  | some b => rfl

theorem concatGo_eq (caps : List Caption) :
    ∀ (last_ts : Nat) (acc : List CaptionBlock),
      (∀ c ∈ caps, c.blocks ≠ []) →
      concatGo caps last_ts acc = some (acc ++ concatSpecBlocks caps last_ts) := by
  induction caps with
  | nil => intro last_ts acc _; simp [concatGo, concatSpecBlocks]
  | cons c cs ih =>
    intro last_ts acc h
    have hc : c.blocks ≠ [] := h c (List.mem_cons_self c cs)
    have hcs : ∀ c' ∈ cs, c'.blocks ≠ [] :=
      fun c' hc' => h c' (List.mem_cons_of_mem c hc')
    simp [concatGo, concatOffsetBlocks_eq, time_tail_of_ne_nil c hc,
      concatSpecBlocks, ih _ _ hcs]

/-- C7 counterexample: `concatenate` applied to one empty document — a
sequence whose (vacuous) offset steps all succeed — does not produce a
document: `time_tail`'s unwrap panics. -/
theorem C7_counterexample : Caption.concatenate [⟨none, []⟩] = none := by
  decide

/-- C7 (amended): for every sequence of non-empty documents (so that every
`lastTime()` is defined and every offset step succeeds), `concatenate`
yields one header-less document whose blocks are the input blocks in input
order, the blocks of the i-th document shifted by the running sum of
`lastTime()` over documents 0..i-1. -/
theorem C7_concatenate_shifts (caps : List Caption)
    (h : ∀ c ∈ caps, c.blocks ≠ []) :
    Caption.concatenate caps = some ⟨none, concatSpecBlocks caps 0⟩ := by
  simp [Caption.concatenate, concatGo_eq caps 0 [] h]

theorem C7_concatenate_shifts_witness :
    Caption.concatenate
        [⟨none, [⟨none, SimpleTime.from_milliseconds 0,
                  SimpleTime.from_milliseconds 1000, "a".data⟩]⟩,
         ⟨none, [⟨none, SimpleTime.from_milliseconds 200,
                  SimpleTime.from_milliseconds 2000, "b".data⟩]⟩] =
      some ⟨none, concatSpecBlocks
        [⟨none, [⟨none, SimpleTime.from_milliseconds 0,
                  SimpleTime.from_milliseconds 1000, "a".data⟩]⟩,
         ⟨none, [⟨none, SimpleTime.from_milliseconds 200,
                  SimpleTime.from_milliseconds 2000, "b".data⟩]⟩] 0⟩ :=
  C7_concatenate_shifts _ (by decide)

-- ===== String-model lemmas for the round-trip claim =====

theorem isDigit_ne_special (c : Char) (h : c.isDigit = true) :
    c ≠ '\n' ∧ c ≠ '\r' ∧ c ≠ ' ' ∧ c ≠ '+' ∧ c ≠ '[' ∧ c ≠ ']' := by
  refine ⟨?_, ?_, ?_, ?_, ?_, ?_⟩ <;> rintro rfl <;> exact absurd h (by decide)

theorem digitChar_lt_ten (d : Nat) (h : d < 10) :
    (Nat.digitChar d).isDigit = true ∧ digitVal (Nat.digitChar d) = d := by
  interval_cases d <;> exact ⟨by decide, by decide⟩

theorem natDigitsCore_forall (P : Char → Prop)
    (hP : ∀ d, d < 10 → P (Nat.digitChar d)) :
    ∀ fuel n acc, (∀ c ∈ acc, P c) → ∀ c ∈ natDigitsCore fuel n acc, P c := by
  intro fuel
  induction fuel with
  | zero => intro n acc hacc c hc; exact hacc c hc
  | succ fuel ih =>
    intro n acc hacc c hc
    simp only [natDigitsCore] at hc
    by_cases hn : n < 10
    · rw [if_pos hn] at hc
      rcases List.mem_cons.mp hc with rfl | hm
      · exact hP n hn
      · exact hacc c hm
    · rw [if_neg hn] at hc
      refine ih (n / 10) (Nat.digitChar (n % 10) :: acc) ?_ c hc
      intro c' hc'
      rcases List.mem_cons.mp hc' with rfl | hm
      · exact hP (n % 10) (Nat.mod_lt n (by omega))
      · exact hacc c' hm

theorem natDigits_isDigit (n : Nat) : ∀ c ∈ natDigits n, c.isDigit = true :=
  natDigitsCore_forall _ (fun d h => (digitChar_lt_ten d h).1) (n + 1) n []
    (by simp)

theorem natDigitsCore_eq_nil :
    ∀ fuel n acc, natDigitsCore fuel n acc = [] → fuel = 0 ∧ acc = [] := by
  intro fuel
  induction fuel with
  | zero => intro n acc h; exact ⟨rfl, h⟩
  | succ fuel ih =>
    intro n acc h
    simp only [natDigitsCore] at h
    by_cases hn : n < 10
    · rw [if_pos hn] at h
      exact absurd h (by simp)
    · rw [if_neg hn] at h
      have := (ih _ _ h).2
      exact absurd this (by simp)

theorem natDigits_ne_nil (n : Nat) : natDigits n ≠ [] := by
  intro h
  exact absurd (natDigitsCore_eq_nil _ _ _ h).1 (by simp)

theorem padZero_isDigit (w n : Nat) : ∀ c ∈ padZero w n, c.isDigit = true := by
  intro c hc
  rcases List.mem_append.mp hc with hm | hm
  · rw [List.eq_of_mem_replicate hm]; decide
  · exact natDigits_isDigit n c hm

theorem splitOnChar_ne_nil (sep : Char) (s : Str) : splitOnChar sep s ≠ [] := by
  induction s with
  | nil => simp [splitOnChar]
  | cons c rest ih =>
    simp only [splitOnChar]
    split_ifs
    · simp
    · cases h : splitOnChar sep rest <;> simp

theorem splitOnChar_of_not_mem (sep : Char) (s : Str) (h : sep ∉ s) :
    splitOnChar sep s = [s] := by
  induction s with
  | nil => rfl
  | cons c rest ih =>
    have hc : ¬ (c = sep) := by
      rintro rfl; exact h (List.mem_cons_self c rest)
    have hr : sep ∉ rest := fun hm => h (List.mem_cons_of_mem c hm)
    simp [splitOnChar, hc, ih hr]

theorem splitOnChar_append (sep : Char) (xs ys : Str) (h : sep ∉ xs) :
    splitOnChar sep (xs ++ sep :: ys) = xs :: splitOnChar sep ys := by
  induction xs with
  | nil => simp [splitOnChar]
  | cons c rest ih =>
    have hc : ¬ (c = sep) := by
      rintro rfl; exact h (List.mem_cons_self c rest)
    have hr : sep ∉ rest := fun hm => h (List.mem_cons_of_mem c hm)
    simp only [List.cons_append, splitOnChar, hc, if_false, List.append_eq,
      ih hr]

theorem joinNl_cons (l : Str) (ls : List Str) (h : ls ≠ []) :
    joinNl (l :: ls) = l ++ '\n' :: joinNl ls := by
  cases ls with
  | nil => exact absurd rfl h
  | cons l' ls' => rfl

theorem splitOnChar_joinNl (ls : List Str) (hne : ls ≠ [])
    (h : ∀ l ∈ ls, '\n' ∉ l) :
    splitOnChar '\n' (joinNl ls) = ls := by
  induction ls with
  | nil => exact absurd rfl hne
  | cons l ls ih =>
    cases ls with
    | nil =>
      exact splitOnChar_of_not_mem _ _ (h l (List.mem_cons_self l []))
    | cons l2 ls2 =>
      rw [joinNl_cons _ _ (by simp),
        splitOnChar_append _ _ _ (h l (List.mem_cons_self l _)),
        ih (by simp) (fun l' hl' => h l' (List.mem_cons_of_mem l hl'))]

theorem splitOnChar_joinNl_concat (ls : List Str) (hne : ls ≠ [])
    (h : ∀ l ∈ ls, '\n' ∉ l) (ys : Str) :
    splitOnChar '\n' (joinNl ls ++ '\n' :: ys) = ls ++ splitOnChar '\n' ys := by
  induction ls with
  | nil => exact absurd rfl hne
  | cons l ls ih =>
    cases ls with
    | nil =>
      simp only [joinNl, List.cons_append, List.nil_append]
      rw [splitOnChar_append _ _ _ (h l (List.mem_cons_self l []))]
    | cons l2 ls2 =>
      rw [joinNl_cons _ _ (by simp), List.append_assoc, List.cons_append]
      rw [splitOnChar_append _ _ _ (h l (List.mem_cons_self l _))]
      rw [ih (by simp) (fun l' hl' => h l' (List.mem_cons_of_mem l hl'))]
      simp

theorem stripCr_eq (l : Str) (h : l.getLast? ≠ some '\r') : stripCr l = l := by
  simp [stripCr, h]

theorem map_stripCr_eq (ls : List Str)
    (h : ∀ l ∈ ls, l.getLast? ≠ some '\r') : ls.map stripCr = ls := by
  induction ls with
  | nil => rfl
  | cons l ls ih =>
    rw [List.map_cons, stripCr_eq l (h l (List.mem_cons_self l ls)),
      ih (fun l' hl' => h l' (List.mem_cons_of_mem l hl'))]

theorem getLast?_ne_cr_of_forall (l : Str) (h : ∀ c ∈ l, c ≠ '\r') :
    l.getLast? ≠ some '\r' := by
  intro hg
  exact absurd rfl (h '\r' (List.mem_of_mem_getLast? (by simp [hg])))

theorem rustLines_joinNl (ls : List Str) (hne : ls ≠ [])
    (hnl : ∀ l ∈ ls, '\n' ∉ l) (hcr : ∀ l ∈ ls, l.getLast? ≠ some '\r')
    (hlast : ls.getLast? ≠ some []) :
    rustLines (joinNl ls) = ls := by
  simp only [rustLines]
  rw [splitOnChar_joinNl ls hne hnl, if_neg hlast, map_stripCr_eq ls hcr]

theorem rustLines_joinNl_nl (ls : List Str) (hne : ls ≠ [])
    (hnl : ∀ l ∈ ls, '\n' ∉ l) (hcr : ∀ l ∈ ls, l.getLast? ≠ some '\r') :
    rustLines (joinNl ls ++ ['\n']) = ls := by
  simp only [rustLines]
  have h1 : splitOnChar '\n' (joinNl ls ++ '\n' :: []) = ls ++ [[]] := by
    rw [splitOnChar_joinNl_concat ls hne hnl []]
    rfl
  rw [h1, if_pos (List.getLast?_concat ls), List.dropLast_concat,
    map_stripCr_eq ls hcr]

theorem findIdxOpt_append_of_none {α : Type} (p : α → Bool) (xs ys : List α)
    (h : ∀ x ∈ xs, p x = false) :
    findIdxOpt p (xs ++ ys) = (findIdxOpt p ys).map (· + xs.length) := by
  induction xs with
  | nil => simp
  | cons x rest ih =>
    have hx : p x = false := h x (List.mem_cons_self x rest)
    rw [List.cons_append]
    simp only [findIdxOpt, hx, Bool.false_eq_true, if_false]
    rw [ih (fun x' hx' => h x' (List.mem_cons_of_mem x hx'))]
    cases findIdxOpt p ys with
    | none => simp
    | some k => simp; omega

theorem findIdxOpt_eq_none {α : Type} (p : α → Bool) (l : List α)
    (h : ∀ x ∈ l, p x = false) : findIdxOpt p l = none := by
  induction l with
  | nil => rfl
  | cons x rest ih =>
    simp only [findIdxOpt, h x (List.mem_cons_self x rest),
      Bool.false_eq_true, if_false]
    rw [ih (fun x' hx' => h x' (List.mem_cons_of_mem x hx'))]
    rfl

theorem natDigits_small (n : Nat) (h : n < 10) :
    natDigits n = [Nat.digitChar n] := by
  simp [natDigits, natDigitsCore, h]

theorem natDigits_two (n : Nat) (h1 : 10 ≤ n) (h2 : n ≤ 99) :
    natDigits n = [Nat.digitChar (n / 10), Nat.digitChar (n % 10)] := by
  have hlt : ¬ n < 10 := by omega
  simp only [natDigits, natDigitsCore, hlt, if_false]
  obtain ⟨m, rfl⟩ : ∃ m, n = m + 1 := ⟨n - 1, by omega⟩
  simp only [natDigitsCore]
  rw [if_pos (by omega)]

theorem natDigits_three (n : Nat) (h1 : 100 ≤ n) (h2 : n ≤ 999) :
    natDigits n = [Nat.digitChar (n / 100), Nat.digitChar (n / 10 % 10),
      Nat.digitChar (n % 10)] := by
  have hlt : ¬ n < 10 := by omega
  simp only [natDigits, natDigitsCore, hlt, if_false]
  obtain ⟨m, rfl⟩ : ∃ m, n = m + 1 := ⟨n - 1, by omega⟩
  simp only [natDigitsCore]
  rw [if_neg (by omega)]
  obtain ⟨k, rfl⟩ : ∃ k, m = k + 1 := ⟨m - 1, by omega⟩
  simp only [natDigitsCore]
  rw [if_pos (by omega)]
  rw [Nat.div_div_eq_div_mul]

theorem padZero_two_eq (n : Nat) (h : n ≤ 99) :
    padZero 2 n = [Nat.digitChar (n / 10), Nat.digitChar (n % 10)] := by
  by_cases h10 : n < 10
  · rw [padZero, natDigits_small n h10]
    have e1 : n / 10 = 0 := by omega
    have e2 : n % 10 = n := by omega
    rw [e1, e2]
    rfl
  · rw [padZero, natDigits_two n (by omega) h]
    rfl

theorem padZero_three_eq (n : Nat) (h : n ≤ 999) :
    padZero 3 n = [Nat.digitChar (n / 100), Nat.digitChar (n / 10 % 10),
      Nat.digitChar (n % 10)] := by
  by_cases h10 : n < 10
  · rw [padZero, natDigits_small n h10]
    have e1 : n / 100 = 0 := by omega
    have e2 : n / 10 % 10 = 0 := by omega
    have e3 : n % 10 = n := by omega
    rw [e1, e2, e3]
    rfl
  · by_cases h100 : n < 100
    · rw [padZero, natDigits_two n (by omega) (by omega)]
      have e1 : n / 100 = 0 := by omega
      have e2 : n / 10 % 10 = n / 10 := by omega
      rw [e1, e2]
      rfl
    · rw [padZero, natDigits_three n (by omega) h]
      rfl

theorem rustParseUsize_digitPair (x y : Nat) (hx : x < 10) (hy : y < 10) :
    rustParseUsize [Nat.digitChar x, Nat.digitChar y] = some (10 * x + y) := by
  have d1 := digitChar_lt_ten x hx
  have d2 := digitChar_lt_ten y hy
  have hplus : ¬ (Nat.digitChar x = '+') := (isDigit_ne_special _ d1.1).2.2.2.1
  simp only [rustParseUsize, hplus, if_false]
  simp only [parseDigitsAux, d1.1, d2.1, if_true, d1.2, d2.2]
  exact congrArg some (by ring)

theorem rustParseUsize_digitTriple (x y z : Nat) (hx : x < 10) (hy : y < 10)
    (hz : z < 10) :
    rustParseUsize [Nat.digitChar x, Nat.digitChar y, Nat.digitChar z] =
      some (100 * x + 10 * y + z) := by
  have d1 := digitChar_lt_ten x hx
  have d2 := digitChar_lt_ten y hy
  have d3 := digitChar_lt_ten z hz
  have hplus : ¬ (Nat.digitChar x = '+') := (isDigit_ne_special _ d1.1).2.2.2.1
  simp only [rustParseUsize, hplus, if_false]
  simp only [parseDigitsAux, d1.1, d2.1, d3.1, if_true, d1.2, d2.2, d3.2]
  exact congrArg some (by ring)

theorem parseDigitsAux_isSome (s : Str) :
    ∀ a, (∀ c ∈ s, c.isDigit = true) → ∃ v, parseDigitsAux a s = some v := by
  induction s with
  | nil => intro a _; exact ⟨a, rfl⟩
  | cons c rest ih =>
    intro a h
    simp only [parseDigitsAux, h c (List.mem_cons_self c rest), if_true]
    exact ih _ (fun c' hc' => h c' (List.mem_cons_of_mem c hc'))

theorem rustParseUsize_natDigits_isSome (n : Nat) :
    ∃ v, rustParseUsize (natDigits n) = some v := by
  cases h : natDigits n with
  | nil => exact absurd h (natDigits_ne_nil n)
  | cons c rest =>
    have hc : c.isDigit = true :=
      natDigits_isDigit n c (h ▸ List.mem_cons_self c rest)
    have hplus : ¬ (c = '+') := (isDigit_ne_special _ hc).2.2.2.1
    simp only [rustParseUsize, hplus, if_false]
    exact parseDigitsAux_isSome (c :: rest) 0
      (fun c' hc' => natDigits_isDigit n c' (h ▸ hc'))

theorem from_parts_of_bounds (h m s ms : Nat) (hm : m ≤ 59) (hs : s ≤ 59)
    (hms : ms ≤ 998) :
    SimpleTime.from_parts h m s ms = some ⟨h, m, s, ms⟩ := by
  rw [SimpleTime.from_parts, if_neg (by omega), if_neg (by omega),
    if_neg (by omega)]

theorem vtt_block_timestamp_digits (h m s ms : Nat) (hh : h ≤ 99)
    (hm : m ≤ 59) (hs : s ≤ 59) (hms : ms ≤ 998) :
    VttParser.block_timestamp
        (Nat.digitChar (h / 10) :: Nat.digitChar (h % 10) :: ':' ::
         Nat.digitChar (m / 10) :: Nat.digitChar (m % 10) :: ':' ::
         Nat.digitChar (s / 10) :: Nat.digitChar (s % 10) :: '.' ::
         Nat.digitChar (ms / 100) :: Nat.digitChar (ms / 10 % 10) ::
         Nat.digitChar (ms % 10) :: []) = .ok ⟨h, m, s, ms⟩ := by
  have p1 : rustParseUsize [Nat.digitChar (h / 10), Nat.digitChar (h % 10)] =
      some h := by
    rw [rustParseUsize_digitPair _ _ (by omega) (by omega)]
    exact congrArg some (by omega)
  have p2 : rustParseUsize [Nat.digitChar (m / 10), Nat.digitChar (m % 10)] =
      some m := by
    rw [rustParseUsize_digitPair _ _ (by omega) (by omega)]
    exact congrArg some (by omega)
  have p3 : rustParseUsize [Nat.digitChar (s / 10), Nat.digitChar (s % 10)] =
      some s := by
    rw [rustParseUsize_digitPair _ _ (by omega) (by omega)]
    exact congrArg some (by omega)
  have p4 : rustParseUsize [Nat.digitChar (ms / 100),
      Nat.digitChar (ms / 10 % 10), Nat.digitChar (ms % 10)] = some ms := by
    rw [rustParseUsize_digitTriple _ _ _ (by omega) (by omega) (by omega)]
    exact congrArg some (by omega)
  simp [VttParser.block_timestamp, strSlice, p1, p2, p3, p4,
    from_parts_of_bounds h m s ms hm hs hms]

theorem srt_block_timestamp_digits (h m s ms : Nat) (hh : h ≤ 99)
    (hm : m ≤ 59) (hs : s ≤ 59) (hms : ms ≤ 998) :
    SrtParser.block_timestamp
        (Nat.digitChar (h / 10) :: Nat.digitChar (h % 10) :: ':' ::
         Nat.digitChar (m / 10) :: Nat.digitChar (m % 10) :: ':' ::
         Nat.digitChar (s / 10) :: Nat.digitChar (s % 10) :: ',' ::
         Nat.digitChar (ms / 100) :: Nat.digitChar (ms / 10 % 10) ::
         Nat.digitChar (ms % 10) :: []) = .ok ⟨h, m, s, ms⟩ := by
  have p1 : rustParseUsize [Nat.digitChar (h / 10), Nat.digitChar (h % 10)] =
      some h := by
    rw [rustParseUsize_digitPair _ _ (by omega) (by omega)]
    exact congrArg some (by omega)
  have p2 : rustParseUsize [Nat.digitChar (m / 10), Nat.digitChar (m % 10)] =
      some m := by
    rw [rustParseUsize_digitPair _ _ (by omega) (by omega)]
    exact congrArg some (by omega)
  have p3 : rustParseUsize [Nat.digitChar (s / 10), Nat.digitChar (s % 10)] =
      some s := by
    rw [rustParseUsize_digitPair _ _ (by omega) (by omega)]
    exact congrArg some (by omega)
  have p4 : rustParseUsize [Nat.digitChar (ms / 100),
      Nat.digitChar (ms / 10 % 10), Nat.digitChar (ms % 10)] = some ms := by
    rw [rustParseUsize_digitTriple _ _ _ (by omega) (by omega) (by omega)]
    exact congrArg some (by omega)
  simp [SrtParser.block_timestamp, strSlice, p1, p2, p3, p4,
    from_parts_of_bounds h m s ms hm hs hms]

theorem vtt_timestamp_chain (t : SimpleTime) (ht : GoodTime t) :
    VttWriter.timestamp t =
      Nat.digitChar (t.hours / 10) :: Nat.digitChar (t.hours % 10) :: ':' ::
      Nat.digitChar (t.minutes / 10) :: Nat.digitChar (t.minutes % 10) :: ':' ::
      Nat.digitChar (t.seconds / 10) :: Nat.digitChar (t.seconds % 10) :: '.' ::
      Nat.digitChar (t.milliseconds / 100) ::
      Nat.digitChar (t.milliseconds / 10 % 10) ::
      Nat.digitChar (t.milliseconds % 10) :: [] := by
  obtain ⟨hh, hm, hs, hms⟩ := ht
  rw [VttWriter.timestamp, padZero_two_eq _ (by omega),
    padZero_two_eq _ (by omega), padZero_two_eq _ (by omega),
    padZero_three_eq _ (by omega)]
  rfl

theorem srt_timestamp_chain (t : SimpleTime) (ht : GoodTime t) :
    SrtWriter.timestamp t =
      Nat.digitChar (t.hours / 10) :: Nat.digitChar (t.hours % 10) :: ':' ::
      Nat.digitChar (t.minutes / 10) :: Nat.digitChar (t.minutes % 10) :: ':' ::
      Nat.digitChar (t.seconds / 10) :: Nat.digitChar (t.seconds % 10) :: ',' ::
      Nat.digitChar (t.milliseconds / 100) ::
      Nat.digitChar (t.milliseconds / 10 % 10) ::
      Nat.digitChar (t.milliseconds % 10) :: [] := by
  obtain ⟨hh, hm, hs, hms⟩ := ht
  rw [SrtWriter.timestamp, padZero_two_eq _ (by omega),
    padZero_two_eq _ (by omega), padZero_two_eq _ (by omega),
    padZero_three_eq _ (by omega)]
  rfl

theorem vtt_timestamp_roundtrip (t : SimpleTime) (ht : GoodTime t) :
    VttParser.block_timestamp (VttWriter.timestamp t) = .ok t := by
  rw [vtt_timestamp_chain t ht,
    vtt_block_timestamp_digits t.hours t.minutes t.seconds t.milliseconds
      ht.1 ht.2.1 ht.2.2.1 ht.2.2.2]

theorem srt_timestamp_roundtrip (t : SimpleTime) (ht : GoodTime t) :
    SrtParser.block_timestamp (SrtWriter.timestamp t) = .ok t := by
  rw [srt_timestamp_chain t ht,
    srt_block_timestamp_digits t.hours t.minutes t.seconds t.milliseconds
      ht.1 ht.2.1 ht.2.2.1 ht.2.2.2]

theorem arrow5_data : " --> ".data = [' ', '-', '-', '>', ' '] := rfl

theorem arrow3_data : "-->".data = ['-', '-', '>'] := rfl

theorem vtt_timestamp_length (t : SimpleTime) (ht : GoodTime t) :
    (VttWriter.timestamp t).length = 12 := by
  rw [vtt_timestamp_chain t ht]
  rfl

theorem vtt_timestamp_mem (t : SimpleTime) (ht : GoodTime t) :
    ∀ c ∈ VttWriter.timestamp t, c.isDigit = true ∨ c = ':' ∨ c = '.' := by
  obtain ⟨hh, hm, hs, hms⟩ := ht
  rw [vtt_timestamp_chain t ⟨hh, hm, hs, hms⟩]
  intro c hc
  simp only [List.mem_cons, List.not_mem_nil, or_false] at hc
  rcases hc with rfl | rfl | rfl | rfl | rfl | rfl | rfl | rfl | rfl | rfl |
    rfl | rfl
  all_goals first
    | exact Or.inl (digitChar_lt_ten _ (by omega)).1
    | simp

theorem srt_timestamp_mem (t : SimpleTime) (ht : GoodTime t) :
    ∀ c ∈ SrtWriter.timestamp t, c.isDigit = true ∨ c = ':' ∨ c = ',' := by
  obtain ⟨hh, hm, hs, hms⟩ := ht
  rw [srt_timestamp_chain t ⟨hh, hm, hs, hms⟩]
  intro c hc
  simp only [List.mem_cons, List.not_mem_nil, or_false] at hc
  rcases hc with rfl | rfl | rfl | rfl | rfl | rfl | rfl | rfl | rfl | rfl |
    rfl | rfl
  all_goals first
    | exact Or.inl (digitChar_lt_ten _ (by omega)).1
    | simp

theorem vtt_timestamp_not_special (t : SimpleTime) (ht : GoodTime t) :
    ∀ c ∈ VttWriter.timestamp t, c ≠ ' ' ∧ c ≠ '\n' ∧ c ≠ '\r' := by
  intro c hc
  rcases vtt_timestamp_mem t ht c hc with hd | rfl | rfl
  · have := isDigit_ne_special c hd
    exact ⟨this.2.2.1, this.1, this.2.1⟩
  · refine ⟨by decide, by decide, by decide⟩
  · refine ⟨by decide, by decide, by decide⟩

theorem srt_timestamp_not_special (t : SimpleTime) (ht : GoodTime t) :
    ∀ c ∈ SrtWriter.timestamp t, c ≠ ' ' ∧ c ≠ '\n' ∧ c ≠ '\r' ∧ c ≠ '[' := by
  intro c hc
  rcases srt_timestamp_mem t ht c hc with hd | rfl | rfl
  · have := isDigit_ne_special c hd
    exact ⟨this.2.2.1, this.1, this.2.1, this.2.2.2.2.1⟩
  · refine ⟨by decide, by decide, by decide, by decide⟩
  · refine ⟨by decide, by decide, by decide, by decide⟩

theorem vtt_bht_roundtrip (st en : SimpleTime) (h1 : GoodTime st)
    (h2 : GoodTime en) :
    VttParser.block_header_timestamps
        (VttWriter.timestamp st ++ " --> ".data ++ VttWriter.timestamp en) =
      .ok (st, en) := by
  have hsp1 : ' ' ∉ VttWriter.timestamp st :=
    fun hm => absurd rfl (vtt_timestamp_not_special st h1 ' ' hm).1
  have hsp2 : ' ' ∉ VttWriter.timestamp en :=
    fun hm => absurd rfl (vtt_timestamp_not_special en h2 ' ' hm).1
  have hre : VttWriter.timestamp st ++ " --> ".data ++ VttWriter.timestamp en =
      VttWriter.timestamp st ++ ' ' ::
        (['-', '-', '>'] ++ ' ' :: VttWriter.timestamp en) := by
    rw [arrow5_data]
    simp
  have hsplit : splitOnChar ' '
      (VttWriter.timestamp st ++ " --> ".data ++ VttWriter.timestamp en) =
      [VttWriter.timestamp st, ['-', '-', '>'], VttWriter.timestamp en] := by
    rw [hre, splitOnChar_append _ _ _ hsp1,
      splitOnChar_append _ _ _ (by decide),
      splitOnChar_of_not_mem _ _ hsp2]
  simp only [VttParser.block_header_timestamps, hsplit, List.length_cons,
    List.length_nil, List.getD_cons_zero, List.getD_cons_succ,
    vtt_timestamp_roundtrip st h1, vtt_timestamp_roundtrip en h2]
  norm_num

theorem srt_bht_roundtrip (st en : SimpleTime) (h1 : GoodTime st)
    (h2 : GoodTime en) :
    SrtParser.block_timestamps
        (SrtWriter.timestamp st ++ " --> ".data ++ SrtWriter.timestamp en) =
      .ok (st, en) := by
  have hsp1 : ' ' ∉ SrtWriter.timestamp st :=
    fun hm => absurd rfl (srt_timestamp_not_special st h1 ' ' hm).1
  have hsp2 : ' ' ∉ SrtWriter.timestamp en :=
    fun hm => absurd rfl (srt_timestamp_not_special en h2 ' ' hm).1
  have hre : SrtWriter.timestamp st ++ " --> ".data ++ SrtWriter.timestamp en =
      SrtWriter.timestamp st ++ ' ' ::
        (['-', '-', '>'] ++ ' ' :: SrtWriter.timestamp en) := by
    rw [arrow5_data]
    simp
  have hsplit : splitOnChar ' '
      (SrtWriter.timestamp st ++ " --> ".data ++ SrtWriter.timestamp en) =
      [SrtWriter.timestamp st, ['-', '-', '>'], SrtWriter.timestamp en] := by
    rw [hre, splitOnChar_append _ _ _ hsp1,
      splitOnChar_append _ _ _ (by decide),
      splitOnChar_of_not_mem _ _ hsp2]
  simp only [SrtParser.block_timestamps, hsplit, List.length_cons,
    List.length_nil, List.getD_cons_zero, List.getD_cons_succ,
    srt_timestamp_roundtrip st h1, srt_timestamp_roundtrip en h2]
  norm_num

theorem findIdxOpt_cons_of_true {α : Type} (p : α → Bool) (x : α)
    (xs : List α) (h : p x = true) : findIdxOpt p (x :: xs) = some 0 := by
  simp [findIdxOpt, h]

theorem findIdxOpt_cons_of_false {α : Type} (p : α → Bool) (x : α)
    (xs : List α) (h : p x = false) :
    findIdxOpt p (x :: xs) = (findIdxOpt p xs).map (· + 1) := by
  simp [findIdxOpt, h]

theorem vtt_range_head_digit (cb : CaptionBlock) (hst : GoodTime cb.start) :
    findIdxOpt rustIsNumeric (VttWriter.timestamp cb.start ++ " --> ".data ++
      VttWriter.timestamp cb.stop) = some 0 := by
  rw [vtt_timestamp_chain cb.start hst, List.cons_append, List.cons_append]
  exact findIdxOpt_cons_of_true _ _ _
    (digitChar_lt_ten _ (by have := hst.1; omega)).1

theorem vtt_header_line_roundtrip (cb : CaptionBlock)
    (hb : WellFormedVttBlock cb) :
    VttParser.block_header (VttWriter.headerLine cb) =
      .ok (cb.speaker, cb.start, cb.stop) := by
  obtain ⟨htext, hst, hen, hsp⟩ := hb
  cases hcb : cb.speaker with
  | none =>
    simp only [VttWriter.headerLine, hcb]
    unfold VttParser.block_header
    have hlen : ¬ ((VttWriter.timestamp cb.start ++ " --> ".data ++
        VttWriter.timestamp cb.stop).length = 0) := by
      simp [vtt_timestamp_length cb.start hst]
    rw [if_neg hlen]
    have hhead : rustIsNumeric ((VttWriter.timestamp cb.start ++ " --> ".data ++
        VttWriter.timestamp cb.stop).headD ' ') = true := by
      rw [vtt_timestamp_chain cb.start hst]
      rw [List.cons_append, List.cons_append, List.headD_cons]
      exact (digitChar_lt_ten _ (by have := hst.1; omega)).1
    rw [if_pos hhead, vtt_bht_roundtrip cb.start cb.stop hst hen]
  | some sp =>
    have hspOk : GoodVttSpeaker sp := by
      rw [hcb] at hsp
      exact hsp sp rfl
    simp only [VttWriter.headerLine, hcb]
    have hline : sp ++ ' ' :: VttWriter.timestamp cb.start ++ " --> ".data ++
        VttWriter.timestamp cb.stop =
        sp ++ ' ' :: (VttWriter.timestamp cb.start ++ " --> ".data ++
          VttWriter.timestamp cb.stop) := by
      simp [List.append_assoc]
    rw [hline]
    unfold VttParser.block_header
    have hlen : ¬ ((sp ++ ' ' :: (VttWriter.timestamp cb.start ++
        " --> ".data ++ VttWriter.timestamp cb.stop)).length = 0) := by
      simp
    rw [if_neg hlen]
    have hhead : rustIsNumeric ((sp ++ ' ' :: (VttWriter.timestamp cb.start ++
        " --> ".data ++ VttWriter.timestamp cb.stop)).headD ' ') = false := by
      cases sp with
      | nil =>
        rw [List.nil_append, List.headD_cons]
        decide
      | cons c sp' =>
        rw [List.cons_append, List.headD_cons]
        exact (hspOk c (List.mem_cons_self c sp')).2.1
    rw [if_neg (by rw [hhead]; decide)]
    have hfi : findIdxOpt rustIsNumeric (sp ++ ' ' ::
        (VttWriter.timestamp cb.start ++ " --> ".data ++
          VttWriter.timestamp cb.stop)) = some (sp.length + 1) := by
      rw [findIdxOpt_append_of_none rustIsNumeric sp _
        (fun c hc => (hspOk c hc).2.1)]
      rw [findIdxOpt_cons_of_false _ _ _ (by decide)]
      rw [vtt_range_head_digit cb hst]
      simp only [Option.map_some']
      exact congrArg some (by omega)
    rw [hfi]
    have hsl : strSlice (sp ++ ' ' :: (VttWriter.timestamp cb.start ++
        " --> ".data ++ VttWriter.timestamp cb.stop))
        (sp.length + 1 - 1) (sp.length + 1) = [' '] := by
      simp only [Nat.add_sub_cancel, strSlice]
      rw [List.drop_left]
      simp
    have htake : (sp ++ ' ' :: (VttWriter.timestamp cb.start ++ " --> ".data ++
        VttWriter.timestamp cb.stop)).take (sp.length + 1 - 1) = sp := by
      simp only [Nat.add_sub_cancel]
      exact List.take_left sp _
    have hdrop : (sp ++ ' ' :: (VttWriter.timestamp cb.start ++ " --> ".data ++
        VttWriter.timestamp cb.stop)).drop (sp.length + 1) =
        VttWriter.timestamp cb.start ++ " --> ".data ++
          VttWriter.timestamp cb.stop := by
      rw [show sp ++ ' ' :: (VttWriter.timestamp cb.start ++ " --> ".data ++
          VttWriter.timestamp cb.stop) = (sp ++ [' ']) ++
          (VttWriter.timestamp cb.start ++ " --> ".data ++
            VttWriter.timestamp cb.stop) by simp]
      exact List.drop_left' (by simp)
    simp only [hsl, htake, hdrop, ne_eq, not_true_eq_false, if_false,
      vtt_bht_roundtrip cb.start cb.stop hst hen]

theorem arrow_chars : ∀ c ∈ " --> ".data, c ≠ '\n' ∧ c ≠ '\r' := by decide

theorem vtt_header_line_chars (b : CaptionBlock) (hb : WellFormedVttBlock b) :
    ∀ c ∈ VttWriter.headerLine b, c ≠ '\n' ∧ c ≠ '\r' := by
  obtain ⟨htext, hst, hen, hsp⟩ := hb
  intro c hc
  unfold VttWriter.headerLine at hc
  cases hcb : b.speaker with
  | none =>
    rw [hcb] at hc
    rcases List.mem_append.mp hc with h12 | hm2
    · rcases List.mem_append.mp h12 with hm1 | hmarrow
      · exact ⟨(vtt_timestamp_not_special b.start hst c hm1).2.1,
          (vtt_timestamp_not_special b.start hst c hm1).2.2⟩
      · exact arrow_chars c hmarrow
    · exact ⟨(vtt_timestamp_not_special b.stop hen c hm2).2.1,
        (vtt_timestamp_not_special b.stop hen c hm2).2.2⟩
  | some sp =>
    rw [hcb] at hc hsp
    have hspOk : GoodVttSpeaker sp := hsp sp rfl
    rcases List.mem_append.mp hc with h123 | hm2
    · rcases List.mem_append.mp h123 with h12 | hmarrow
      · rcases List.mem_append.mp h12 with hmsp | hm1
        · exact ⟨(hspOk c hmsp).2.2.1, (hspOk c hmsp).2.2.2⟩
        · rcases List.mem_cons.mp hm1 with rfl | hm1
          · exact ⟨by decide, by decide⟩
          · exact ⟨(vtt_timestamp_not_special b.start hst c hm1).2.1,
              (vtt_timestamp_not_special b.start hst c hm1).2.2⟩
      · exact arrow_chars c hmarrow
    · exact ⟨(vtt_timestamp_not_special b.stop hen c hm2).2.1,
        (vtt_timestamp_not_special b.stop hen c hm2).2.2⟩

theorem srt_range_line_chars (b : CaptionBlock) (hst : GoodTime b.start)
    (hen : GoodTime b.stop) :
    ∀ c ∈ SrtWriter.timestamp b.start ++ " --> ".data ++
      SrtWriter.timestamp b.stop, c ≠ '\n' ∧ c ≠ '\r' := by
  intro c hc
  rcases List.mem_append.mp hc with h12 | hm2
  · rcases List.mem_append.mp h12 with hm1 | hmarrow
    · exact ⟨(srt_timestamp_not_special b.start hst c hm1).2.1,
        (srt_timestamp_not_special b.start hst c hm1).2.2.1⟩
    · exact arrow_chars c hmarrow
  · exact ⟨(srt_timestamp_not_special b.stop hen c hm2).2.1,
      (srt_timestamp_not_special b.stop hen c hm2).2.2.1⟩

theorem srt_text_line_chars (b : CaptionBlock) (hb : WellFormedSrtBlock b) :
    ∀ c ∈ SrtWriter.textLine b, c ≠ '\n' := by
  obtain ⟨htext, hst, hen, hspAll, hspNone⟩ := hb
  intro c hc
  unfold SrtWriter.textLine at hc
  cases hcb : b.speaker with
  | none =>
    rw [hcb] at hc
    exact fun he => htext.2.1 (he ▸ hc)
  | some sp =>
    rw [hcb] at hc hspAll
    have hspOk : GoodSrtSpeaker sp := hspAll sp rfl
    rcases List.mem_cons.mp hc with rfl | hrest
    · decide
    · rcases List.mem_append.mp hrest with hmsp | hm
      · exact (hspOk c hmsp).2.2.1
      · rcases List.mem_cons.mp hm with rfl | hm
        · decide
        · rcases List.mem_cons.mp hm with rfl | hm
          · decide
          · exact fun he => htext.2.1 (he ▸ hm)

theorem natDigits_no_nl (n : Nat) : '\n' ∉ natDigits n :=
  fun hm => absurd (natDigits_isDigit n '\n' hm) (by decide)

theorem natDigits_last (n : Nat) : (natDigits n).getLast? ≠ some '\r' :=
  getLast?_ne_cr_of_forall _
    (fun c hc => (isDigit_ne_special c (natDigits_isDigit n c hc)).2.1)

theorem vtt_header_line_no_nl (b : CaptionBlock) (hb : WellFormedVttBlock b) :
    '\n' ∉ VttWriter.headerLine b :=
  fun hm => absurd rfl (vtt_header_line_chars b hb '\n' hm).1

theorem vtt_header_line_last (b : CaptionBlock) (hb : WellFormedVttBlock b) :
    (VttWriter.headerLine b).getLast? ≠ some '\r' :=
  getLast?_ne_cr_of_forall _ (fun c hc => (vtt_header_line_chars b hb c hc).2)

theorem vtt_block_group_lines (b : CaptionBlock) (hb : WellFormedVttBlock b)
    (n : Nat) :
    rustLines (joinNl [[], natDigits n, VttWriter.headerLine b, b.text]) =
      [[], natDigits n, VttWriter.headerLine b, b.text] := by
  apply rustLines_joinNl
  · simp
  · intro l hl
    simp only [List.mem_cons, List.not_mem_nil, or_false] at hl
    rcases hl with rfl | rfl | rfl | rfl
    · simp
    · exact natDigits_no_nl n
    · exact vtt_header_line_no_nl b hb
    · exact hb.1.2.1
  · intro l hl
    simp only [List.mem_cons, List.not_mem_nil, or_false] at hl
    rcases hl with rfl | rfl | rfl | rfl
    · simp
    · exact natDigits_last n
    · exact vtt_header_line_last b hb
    · exact hb.1.2.2
  · have : ([([] : Str), natDigits n, VttWriter.headerLine b,
        b.text]).getLast? = some b.text := by simp
    rw [this]
    intro hcontra
    exact hb.1.1 (Option.some.inj hcontra)

theorem vtt_block_roundtrip (b : CaptionBlock) (hb : WellFormedVttBlock b)
    (n : Nat) :
    VttParser.block (joinNl [[], natDigits n, VttWriter.headerLine b, b.text]) =
      .ok b := by
  obtain ⟨v, hv⟩ := rustParseUsize_natDigits_isSome n
  simp only [VttParser.block, vtt_block_group_lines b hb n, List.length_cons,
    List.length_nil, VttParser.block_number, hv,
    vtt_header_line_roundtrip b hb, VttParser.block_text]
  norm_num

theorem srt_text_line_ne_nil (b : CaptionBlock) (hb : WellFormedSrtBlock b) :
    SrtWriter.textLine b ≠ [] := by
  unfold SrtWriter.textLine
  cases hcb : b.speaker with
  | none => exact hb.1.1
  | some sp => simp

theorem srt_text_line_last (b : CaptionBlock) (hb : WellFormedSrtBlock b) :
    (SrtWriter.textLine b).getLast? ≠ some '\r' := by
  cases hcb : b.speaker with
  | none =>
    unfold SrtWriter.textLine
    rw [hcb]
    exact hb.1.2.2
  | some sp =>
    unfold SrtWriter.textLine
    rw [hcb]
    show List.getLast? ('[' :: sp ++ ']' :: ' ' :: b.text) ≠ some '\r'
    have hsplit : '[' :: sp ++ ']' :: ' ' :: b.text =
        ('[' :: sp ++ [']', ' ']) ++ b.text := by simp
    rw [hsplit, List.getLast?_append_of_ne_nil _ hb.1.1]
    exact hb.1.2.2

theorem srt_block_text_roundtrip (b : CaptionBlock)
    (hb : WellFormedSrtBlock b) :
    SrtParser.block_text (SrtWriter.textLine b) = .ok (b.speaker, b.text) := by
  obtain ⟨htext, hst, hen, hspAll, hspNone⟩ := hb
  unfold SrtWriter.textLine
  cases hcb : b.speaker with
  | none =>
    rw [hcb] at hspNone
    have hnotext : '[' ∉ b.text := hspNone rfl
    have hno : findIdxOpt (fun c => c = '[') b.text = none :=
      findIdxOpt_eq_none _ _ (fun c hc => by
        simp only [decide_eq_false_iff_not]
        exact fun he => hnotext (he ▸ hc))
    simp [SrtParser.block_text, hno]
  | some sp =>
    rw [hcb] at hspAll
    have hsp : GoodSrtSpeaker sp := hspAll sp rfl
    have h0 : findIdxOpt (fun c => c = '[')
        (('[' :: sp) ++ ']' :: ' ' :: b.text) = some 0 :=
      findIdxOpt_cons_of_true _ _ _ (by decide)
    have h1 : findIdxOpt (fun c => c = ']')
        (('[' :: sp) ++ ']' :: ' ' :: b.text) = some (sp.length + 1) := by
      rw [List.cons_append]
      rw [findIdxOpt_cons_of_false (fun c => decide (c = ']')) '['
        (sp ++ ']' :: ' ' :: b.text) (by decide)]
      rw [findIdxOpt_append_of_none _ sp _ (fun c hc => by
        simp only [decide_eq_false_iff_not]
        exact (hsp c hc).2.1)]
      rw [findIdxOpt_cons_of_true (fun c => decide (c = ']')) ']'
        (' ' :: b.text) (by decide)]
      simp only [Option.map_some']
      exact congrArg some (by omega)
    have hr1 : rustGetRange (('[' :: sp) ++ ']' :: ' ' :: b.text) (0 + 1)
        (sp.length + 1) = some sp := by
      unfold rustGetRange
      have hcond : 0 + 1 ≤ sp.length + 1 ∧
          sp.length + 1 ≤ (('[' :: sp) ++ ']' :: ' ' :: b.text).length := by
        refine ⟨by omega, ?_⟩
        simp only [List.length_cons, List.length_append]
        omega
      rw [if_pos hcond]
      unfold strSlice
      have hd : (('[' :: sp) ++ ']' :: ' ' :: b.text).drop (0 + 1) =
          sp ++ ']' :: ' ' :: b.text := by
        rw [List.cons_append]
        simp
      have ht2 : sp.length + 1 - (0 + 1) = sp.length := by omega
      rw [hd, ht2, List.take_left]
    have hr2 : rustGetFrom (('[' :: sp) ++ ']' :: ' ' :: b.text)
        (sp.length + 1 + 2) = some b.text := by
      unfold rustGetFrom
      have hcond : sp.length + 1 + 2 ≤
          (('[' :: sp) ++ ']' :: ' ' :: b.text).length := by
        simp only [List.length_cons, List.length_append]
        omega
      rw [if_pos hcond]
      have hsplit : ('[' :: sp) ++ ']' :: ' ' :: b.text =
          ('[' :: sp ++ [']', ' ']) ++ b.text := by simp
      rw [hsplit, List.drop_left' (by simp)]
    simp only [SrtParser.block_text, h0, h1, hr1, hr2]
    norm_num

theorem srt_range_line_no_nl (b : CaptionBlock) (hst : GoodTime b.start)
    (hen : GoodTime b.stop) :
    '\n' ∉ SrtWriter.timestamp b.start ++ " --> ".data ++
      SrtWriter.timestamp b.stop :=
  fun hm => absurd rfl (srt_range_line_chars b hst hen '\n' hm).1

theorem srt_range_line_last (b : CaptionBlock) (hst : GoodTime b.start)
    (hen : GoodTime b.stop) :
    (SrtWriter.timestamp b.start ++ " --> ".data ++
      SrtWriter.timestamp b.stop).getLast? ≠ some '\r' :=
  getLast?_ne_cr_of_forall _
    (fun c hc => (srt_range_line_chars b hst hen c hc).2)

theorem srt_text_line_no_nl (b : CaptionBlock) (hb : WellFormedSrtBlock b) :
    '\n' ∉ SrtWriter.textLine b :=
  fun hm => absurd rfl (srt_text_line_chars b hb '\n' hm)

theorem srt_block_group_lines (b : CaptionBlock) (hb : WellFormedSrtBlock b)
    (n : Nat) :
    rustLines (joinNl [[], natDigits n,
      SrtWriter.timestamp b.start ++ " --> ".data ++ SrtWriter.timestamp b.stop,
      SrtWriter.textLine b]) =
      [[], natDigits n,
       SrtWriter.timestamp b.start ++ " --> ".data ++ SrtWriter.timestamp b.stop,
       SrtWriter.textLine b] := by
  apply rustLines_joinNl
  · simp
  · intro l hl
    simp only [List.mem_cons, List.not_mem_nil, or_false] at hl
    rcases hl with rfl | rfl | rfl | rfl
    · simp
    · exact natDigits_no_nl n
    · exact srt_range_line_no_nl b hb.2.1 hb.2.2.1
    · exact srt_text_line_no_nl b hb
  · intro l hl
    simp only [List.mem_cons, List.not_mem_nil, or_false] at hl
    rcases hl with rfl | rfl | rfl | rfl
    · simp
    · exact natDigits_last n
    · exact srt_range_line_last b hb.2.1 hb.2.2.1
    · exact srt_text_line_last b hb
  · have : ([([] : Str), natDigits n,
        SrtWriter.timestamp b.start ++ " --> ".data ++
          SrtWriter.timestamp b.stop,
        SrtWriter.textLine b]).getLast? = some (SrtWriter.textLine b) := by
      simp
    rw [this]
    intro hcontra
    exact srt_text_line_ne_nil b hb (Option.some.inj hcontra)

theorem srt_block_roundtrip (b : CaptionBlock) (hb : WellFormedSrtBlock b)
    (n : Nat) :
    SrtParser.block (joinNl [[], natDigits n,
      SrtWriter.timestamp b.start ++ " --> ".data ++ SrtWriter.timestamp b.stop,
      SrtWriter.textLine b]) = .ok b := by
  obtain ⟨v, hv⟩ := rustParseUsize_natDigits_isSome n
  simp only [SrtParser.block, srt_block_group_lines b hb n, List.length_cons,
    List.length_nil, SrtParser.block_number, hv,
    srt_bht_roundtrip b.start b.stop hb.2.1 hb.2.2.1,
    srt_block_text_roundtrip b hb]
  norm_num

theorem vtt_parseBlocks_roundtrip (bs : List CaptionBlock) :
    ∀ n, (∀ b ∈ bs, WellFormedVttBlock b) →
      VttParser.parseBlocks (vttLinesAll bs n) = .ok bs := by
  induction bs with
  | nil => intro n _; rfl
  | cons b bs ih =>
    intro n h
    have hb := h b (List.mem_cons_self b bs)
    show VttParser.parseBlocks ([] :: natDigits n :: VttWriter.headerLine b ::
      b.text :: vttLinesAll bs (n + 1)) = .ok (b :: bs)
    simp only [VttParser.parseBlocks, vtt_block_roundtrip b hb n,
      ih (n + 1) (fun b' hb' => h b' (List.mem_cons_of_mem b hb'))]

theorem srt_parseBlocks_roundtrip (bs : List CaptionBlock) :
    ∀ n, (∀ b ∈ bs, WellFormedSrtBlock b) →
      SrtParser.parseBlocks (srtLinesAll bs n) = .ok bs := by
  induction bs with
  | nil => intro n _; rfl
  | cons b bs ih =>
    intro n h
    have hb := h b (List.mem_cons_self b bs)
    show SrtParser.parseBlocks ([] :: natDigits n ::
      (SrtWriter.timestamp b.start ++ " --> ".data ++
        SrtWriter.timestamp b.stop) ::
      SrtWriter.textLine b :: srtLinesAll bs (n + 1)) = .ok (b :: bs)
    simp only [SrtParser.parseBlocks, srt_block_roundtrip b hb n,
      ih (n + 1) (fun b' hb' => h b' (List.mem_cons_of_mem b hb'))]

theorem splitOnChar_nl_cons (X : Str) :
    splitOnChar '\n' ('\n' :: X) = [] :: splitOnChar '\n' X := by
  simp [splitOnChar]

theorem splitOnChar_vttBlock_cons (b : CaptionBlock) (n : Nat) (X : Str)
    (hb : WellFormedVttBlock b) :
    splitOnChar '\n' (VttWriter.block b n ++ '\n' :: X) =
      natDigits n :: VttWriter.headerLine b :: b.text :: [] ::
        splitOnChar '\n' X := by
  have he : VttWriter.block b n ++ '\n' :: X =
      natDigits n ++ '\n' :: (VttWriter.headerLine b ++ '\n' ::
        (b.text ++ '\n' :: ('\n' :: X))) := by
    simp [VttWriter.block]
  rw [he, splitOnChar_append _ _ _ (natDigits_no_nl n),
    splitOnChar_append _ _ _ (vtt_header_line_no_nl b hb),
    splitOnChar_append _ _ _ hb.1.2.1, splitOnChar_nl_cons]

theorem splitOnChar_vttBlock_last (b : CaptionBlock) (n : Nat)
    (hb : WellFormedVttBlock b) :
    splitOnChar '\n' (VttWriter.block b n) =
      natDigits n :: VttWriter.headerLine b :: b.text :: [[]] := by
  have he : VttWriter.block b n =
      natDigits n ++ '\n' :: (VttWriter.headerLine b ++ '\n' ::
        (b.text ++ '\n' :: [])) := by
    simp [VttWriter.block]
  rw [he, splitOnChar_append _ _ _ (natDigits_no_nl n),
    splitOnChar_append _ _ _ (vtt_header_line_no_nl b hb),
    splitOnChar_append _ _ _ hb.1.2.1]
  rfl

theorem splitOnChar_srtBlock_cons (b : CaptionBlock) (n : Nat) (X : Str)
    (hb : WellFormedSrtBlock b) :
    splitOnChar '\n' (SrtWriter.block b n ++ '\n' :: X) =
      natDigits n ::
        (SrtWriter.timestamp b.start ++ " --> ".data ++
          SrtWriter.timestamp b.stop) ::
        SrtWriter.textLine b :: [] :: splitOnChar '\n' X := by
  have he : SrtWriter.block b n ++ '\n' :: X =
      natDigits n ++ '\n' ::
        ((SrtWriter.timestamp b.start ++ " --> ".data ++
            SrtWriter.timestamp b.stop) ++ '\n' ::
          (SrtWriter.textLine b ++ '\n' :: ('\n' :: X))) := by
    simp [SrtWriter.block]
  rw [he, splitOnChar_append _ _ _ (natDigits_no_nl n),
    splitOnChar_append _ _ _ (srt_range_line_no_nl b hb.2.1 hb.2.2.1),
    splitOnChar_append _ _ _ (srt_text_line_no_nl b hb), splitOnChar_nl_cons]

theorem splitOnChar_srtBlock_last (b : CaptionBlock) (n : Nat)
    (hb : WellFormedSrtBlock b) :
    splitOnChar '\n' (SrtWriter.block b n) =
      natDigits n ::
        (SrtWriter.timestamp b.start ++ " --> ".data ++
          SrtWriter.timestamp b.stop) ::
        SrtWriter.textLine b :: [[]] := by
  have he : SrtWriter.block b n =
      natDigits n ++ '\n' ::
        ((SrtWriter.timestamp b.start ++ " --> ".data ++
            SrtWriter.timestamp b.stop) ++ '\n' ::
          (SrtWriter.textLine b ++ '\n' :: [])) := by
    simp [SrtWriter.block]
  rw [he, splitOnChar_append _ _ _ (natDigits_no_nl n),
    splitOnChar_append _ _ _ (srt_range_line_no_nl b hb.2.1 hb.2.2.1),
    splitOnChar_append _ _ _ (srt_text_line_no_nl b hb)]
  rfl

theorem vtt_writeBlocks_split (bs : List CaptionBlock) :
    ∀ n, bs ≠ [] → (∀ b ∈ bs, WellFormedVttBlock b) →
      splitOnChar '\n' (joinNl (VttWriter.writeBlocks bs n)) =
        (vttLinesAll bs n).drop 1 ++ [[]] := by
  induction bs with
  | nil => intro n h _; exact absurd rfl h
  | cons b bs ih =>
    intro n _ hw
    have hb := hw b (List.mem_cons_self b bs)
    cases bs with
    | nil =>
      show splitOnChar '\n' (VttWriter.block b n) = _
      rw [splitOnChar_vttBlock_last b n hb]
      simp [vttLinesAll, vttBlockLines]
    | cons b2 bs2 =>
      have hjoin : joinNl (VttWriter.writeBlocks (b :: b2 :: bs2) n) =
          VttWriter.block b n ++ '\n' ::
            joinNl (VttWriter.writeBlocks (b2 :: bs2) (n + 1)) :=
        joinNl_cons _ _ (by simp [VttWriter.writeBlocks])
      rw [hjoin, splitOnChar_vttBlock_cons b n _ hb,
        ih (n + 1) (by simp) (fun b' hb' => hw b' (List.mem_cons_of_mem b hb'))]
      simp [vttLinesAll, vttBlockLines]

theorem srt_writeBlocks_split (bs : List CaptionBlock) :
    ∀ n, bs ≠ [] → (∀ b ∈ bs, WellFormedSrtBlock b) →
      splitOnChar '\n' (joinNl (SrtWriter.writeBlocks bs n)) =
        (srtLinesAll bs n).drop 1 ++ [[]] := by
  induction bs with
  | nil => intro n h _; exact absurd rfl h
  | cons b bs ih =>
    intro n _ hw
    have hb := hw b (List.mem_cons_self b bs)
    cases bs with
    | nil =>
      show splitOnChar '\n' (SrtWriter.block b n) = _
      rw [splitOnChar_srtBlock_last b n hb]
      simp [srtLinesAll, srtBlockLines]
    | cons b2 bs2 =>
      have hjoin : joinNl (SrtWriter.writeBlocks (b :: b2 :: bs2) n) =
          SrtWriter.block b n ++ '\n' ::
            joinNl (SrtWriter.writeBlocks (b2 :: bs2) (n + 1)) :=
        joinNl_cons _ _ (by simp [SrtWriter.writeBlocks])
      rw [hjoin, splitOnChar_srtBlock_cons b n _ hb,
        ih (n + 1) (by simp) (fun b' hb' => hw b' (List.mem_cons_of_mem b hb'))]
      simp [srtLinesAll, srtBlockLines]

theorem vttLinesAll_last_ok (bs : List CaptionBlock) :
    ∀ n, (∀ b ∈ bs, WellFormedVttBlock b) →
      ∀ l ∈ vttLinesAll bs n, l.getLast? ≠ some '\r' := by
  induction bs with
  | nil => intro n _ l hl; exact absurd hl (by simp [vttLinesAll])
  | cons b bs ih =>
    intro n h l hl
    have hb := h b (List.mem_cons_self b bs)
    simp only [vttLinesAll, vttBlockLines, List.mem_append,
      List.mem_cons, List.not_mem_nil, or_false] at hl
    rcases hl with (rfl | rfl | rfl | rfl) | hl
    · simp
    · exact natDigits_last n
    · exact vtt_header_line_last b hb
    · exact hb.1.2.2
    · exact ih (n + 1) (fun b' hb' => h b' (List.mem_cons_of_mem b hb')) l hl

theorem srtLinesAll_last_ok (bs : List CaptionBlock) :
    ∀ n, (∀ b ∈ bs, WellFormedSrtBlock b) →
      ∀ l ∈ srtLinesAll bs n, l.getLast? ≠ some '\r' := by
  induction bs with
  | nil => intro n _ l hl; exact absurd hl (by simp [srtLinesAll])
  | cons b bs ih =>
    intro n h l hl
    have hb := h b (List.mem_cons_self b bs)
    simp only [srtLinesAll, srtBlockLines, List.mem_append,
      List.mem_cons, List.not_mem_nil, or_false] at hl
    rcases hl with (rfl | rfl | rfl | rfl) | hl
    · simp
    · exact natDigits_last n
    · exact srt_range_line_last b hb.2.1 hb.2.2.1
    · exact srt_text_line_last b hb
    · exact ih (n + 1) (fun b' hb' => h b' (List.mem_cons_of_mem b hb')) l hl

theorem vttLinesAll_cons_blank (b : CaptionBlock) (bs : List CaptionBlock)
    (n : Nat) :
    vttLinesAll (b :: bs) n = [] :: (vttLinesAll (b :: bs) n).drop 1 := by
  simp [vttLinesAll, vttBlockLines]

theorem srtLinesAll_cons_blank (b : CaptionBlock) (bs : List CaptionBlock)
    (n : Nat) :
    srtLinesAll (b :: bs) n = [] :: (srtLinesAll (b :: bs) n).drop 1 := by
  simp [srtLinesAll, srtBlockLines]

theorem vttLinesAll_length (bs : List CaptionBlock) :
    ∀ n, (vttLinesAll bs n).length = 4 * bs.length := by
  induction bs with
  | nil => intro n; rfl
  | cons b bs ih =>
    intro n
    simp [vttLinesAll, vttBlockLines, ih (n + 1)]
    omega

theorem srtLinesAll_length (bs : List CaptionBlock) :
    ∀ n, (srtLinesAll bs n).length = 4 * bs.length := by
  induction bs with
  | nil => intro n; rfl
  | cons b bs ih =>
    intro n
    simp [srtLinesAll, srtBlockLines, ih (n + 1)]
    omega

theorem rustLines_vttWrite (bs : List CaptionBlock)
    (h : ∀ b ∈ bs, WellFormedVttBlock b) :
    rustLines (VttWriter.write ⟨none, bs⟩) =
      "WEBVTT".data :: vttLinesAll bs 1 := by
  cases bs with
  | nil => decide
  | cons b bs2 =>
    have hW : VttWriter.write ⟨none, b :: bs2⟩ =
        "WEBVTT".data ++ '\n' ::
          ('\n' :: joinNl (VttWriter.writeBlocks (b :: bs2) 1)) := by
      unfold VttWriter.write VttWriter.header
      rw [joinNl_cons _ _ (by simp [VttWriter.writeBlocks])]
      rfl
    rw [hW]
    unfold rustLines
    rw [splitOnChar_append '\n' _ _ (by decide), splitOnChar_nl_cons,
      vtt_writeBlocks_split (b :: bs2) 1 (by simp) h]
    have hshape : ("WEBVTT".data : Str) :: ([] : Str) ::
        ((vttLinesAll (b :: bs2) 1).drop 1 ++ [[]]) =
        ("WEBVTT".data :: ([] : Str) :: (vttLinesAll (b :: bs2) 1).drop 1)
          ++ [([] : Str)] := by
      simp
    rw [hshape]
    simp only [List.getLast?_concat, List.dropLast_concat, eq_self_iff_true,
      if_true]
    rw [map_stripCr_eq _ ?hcr]
    case hcr =>
      intro l hl
      rcases List.mem_cons.mp hl with rfl | hl
      · decide
      · rcases List.mem_cons.mp hl with rfl | hl
        · simp
        · exact vttLinesAll_last_ok (b :: bs2) 1 h l (List.drop_subset 1 _ hl)
    rw [← vttLinesAll_cons_blank b bs2 1]

theorem rustLines_srtWrite (bs : List CaptionBlock) (hne : bs ≠ [])
    (h : ∀ b ∈ bs, WellFormedSrtBlock b) :
    rustLines ('\n' :: SrtWriter.write ⟨none, bs⟩) = srtLinesAll bs 1 := by
  cases bs with
  | nil => exact absurd rfl hne
  | cons b bs2 =>
    unfold SrtWriter.write rustLines
    rw [splitOnChar_nl_cons, srt_writeBlocks_split (b :: bs2) 1 (by simp) h]
    have hshape : ([] : Str) :: ((srtLinesAll (b :: bs2) 1).drop 1 ++ [[]]) =
        (([] : Str) :: (srtLinesAll (b :: bs2) 1).drop 1) ++ [([] : Str)] := by
      simp
    rw [hshape]
    simp only [List.getLast?_concat, List.dropLast_concat, eq_self_iff_true,
      if_true]
    rw [map_stripCr_eq _ ?hcr]
    case hcr =>
      intro l hl
      rcases List.mem_cons.mp hl with rfl | hl
      · simp
      · exact srtLinesAll_last_ok (b :: bs2) 1 h l (List.drop_subset 1 _ hl)
    rw [← srtLinesAll_cons_blank b bs2 1]

theorem vtt_parse_write (bs : List CaptionBlock)
    (h : ∀ b ∈ bs, WellFormedVttBlock b) :
    VttParser.parse (VttWriter.write ⟨none, bs⟩) = .ok ⟨none, bs⟩ := by
  have hl := rustLines_vttWrite bs h
  have hh : VttParser.header (VttWriter.write ⟨none, bs⟩) = .ok (none, 0) := by
    simp only [VttParser.header, hl]
    rw [findIdxOpt_cons_of_true (fun l => decide (l = "WEBVTT".data))
      "WEBVTT".data (vttLinesAll bs 1) (by simp)]
    simp
  simp only [VttParser.parse, hh, hl, List.length_cons, vttLinesAll_length bs 1]
  rw [if_neg (by omega)]
  have hdrop : (("WEBVTT".data : Str) :: vttLinesAll bs 1).drop (0 + 1) =
      vttLinesAll bs 1 := by simp
  simp only [hdrop, vtt_parseBlocks_roundtrip bs 1 h]

theorem srt_parse_write (bs : List CaptionBlock) (hne : bs ≠ [])
    (h : ∀ b ∈ bs, WellFormedSrtBlock b) :
    SrtParser.parse (SrtWriter.write ⟨none, bs⟩) = .ok ⟨none, bs⟩ := by
  have hl := rustLines_srtWrite bs hne h
  simp only [SrtParser.parse, hl, srtLinesAll_length bs 1]
  rw [if_neg (by omega)]
  simp only [srt_parseBlocks_roundtrip bs 1 h]

/-- C8 counterexample: writing a document that has a header and reparsing
it loses the header (the writer emits one blank line before the `WEBVTT`
marker, the parser strips two), so `parse ∘ write` is not the identity on
well-formed header-bearing documents. -/
theorem C8_counterexample :
    VttParser.parse (VttWriter.write ⟨some "A".data,
      [⟨none, ⟨0, 0, 0, 0⟩, ⟨0, 0, 1, 0⟩, "x".data⟩]⟩) =
      .ok ⟨none, [⟨none, ⟨0, 0, 0, 0⟩, ⟨0, 0, 1, 0⟩, "x".data⟩]⟩ ∧
    (⟨some "A".data, [⟨none, ⟨0, 0, 0, 0⟩, ⟨0, 0, 1, 0⟩, "x".data⟩]⟩ :
      Caption).header ≠ none := by
  decide

/-- C8 (amended): for every well-formed document with no header — blocks
with non-empty single-line text not ending in a carriage return, times with
two-digit hours and in-range components, VTT speakers ASCII and digit-free,
SRT speakers ASCII and bracket-free (and, for SRT, at least one block and
no `[` opening a speaker-less text) — parsing the written text yields
exactly the original document, blocks renumbered sequentially from 1. -/
theorem C8_roundtrip_headerless (d : Caption) :
    (WellFormedVtt d → VttParser.parse (VttWriter.write d) = .ok d) ∧
    (WellFormedSrt d → SrtParser.parse (SrtWriter.write d) = .ok d) := by
  constructor
  · intro hw
    obtain ⟨hh, hb⟩ := hw
    cases d with
    | mk header blocks =>
      simp only at hh hb
      subst hh
      exact vtt_parse_write blocks hb
  · intro hw
    obtain ⟨hh, hne, hb⟩ := hw
    cases d with
    | mk header blocks =>
      simp only at hh hne hb
      subst hh
      exact srt_parse_write blocks hne hb

theorem C8_roundtrip_headerless_witness :
    VttParser.parse (VttWriter.write ⟨none,
      [⟨some "Bob".data, ⟨0, 0, 0, 0⟩, ⟨0, 0, 1, 500⟩, "Hi there".data⟩]⟩) =
      .ok ⟨none,
        [⟨some "Bob".data, ⟨0, 0, 0, 0⟩, ⟨0, 0, 1, 500⟩, "Hi there".data⟩]⟩ ∧
    SrtParser.parse (SrtWriter.write ⟨none,
      [⟨some "Bob".data, ⟨0, 0, 0, 0⟩, ⟨0, 0, 1, 500⟩, "Hi there".data⟩]⟩) =
      .ok ⟨none,
        [⟨some "Bob".data, ⟨0, 0, 0, 0⟩, ⟨0, 0, 1, 500⟩, "Hi there".data⟩]⟩ :=
  ⟨(C8_roundtrip_headerless _).1 (by
      unfold WellFormedVtt WellFormedVttBlock GoodText GoodTime GoodVttSpeaker
      decide),
   (C8_roundtrip_headerless _).2 (by
      unfold WellFormedSrt WellFormedSrtBlock GoodText GoodTime GoodSrtSpeaker
      decide)⟩


/-- C9: for all components accepted by `from_parts` (minutes and seconds
below 60, milliseconds below 999), converting the constructed time to total
milliseconds and rebuilding it with `from_milliseconds` yields the original
value. -/
theorem C9_component_roundtrip (h m s ms : Nat) (hm : m < 60) (hs : s < 60)
    (hms : ms < 999) :
    SimpleTime.from_parts h m s ms = some ⟨h, m, s, ms⟩ ∧
    SimpleTime.from_milliseconds
        (SimpleTime.to_milliseconds ⟨h, m, s, ms⟩) = ⟨h, m, s, ms⟩ := by
  constructor
  · rw [SimpleTime.from_parts, if_neg (by omega), if_neg (by omega),
      if_neg (by omega)]
  · simp only [SimpleTime.from_milliseconds, SimpleTime.to_milliseconds,
      MILLIS_PER_HOUR, MILLIS_PER_MINUTE, MILLIS_PER_SECOND,
      SimpleTime.mk.injEq]
    omega

theorem C9_component_roundtrip_witness :
    SimpleTime.from_parts 1 2 3 4 = some ⟨1, 2, 3, 4⟩ ∧
    SimpleTime.from_milliseconds
        (SimpleTime.to_milliseconds ⟨1, 2, 3, 4⟩) = ⟨1, 2, 3, 4⟩ :=
  C9_component_roundtrip 1 2 3 4 (by decide) (by decide) (by decide)

/-- C10: for every non-negative total `m`, `from_milliseconds m` converts
back to exactly `m`: the from-total-milliseconds constructor loses no
information on any total, not only those reachable from valid components. -/
theorem C10_total_roundtrip (m : Nat) :
    (SimpleTime.from_milliseconds m).to_milliseconds = m :=
  to_milliseconds_from_milliseconds m
